import Mathlib

/-!
Verification of the pad-motion DSU (Cemuhook) protocol library.

The wire codec (`src/protocol/mod.rs`, `src/protocol/internals.rs`), the
server engine (`src/server.rs`) and the client engine (`src/client.rs`) are
embedded shallowly:

* Byte buffers are `List Nat` with every entry `< 256`.
* The Rust `std::io::Cursor` reader is modelled by the monad `P`: a parser
  takes the not-yet-consumed byte list and returns a value together with the
  remaining bytes, or a `ParseError`.
* Machine integers are `Nat` (with explicit `% 2 ^ w` where the source
  truncates); the single `i32` field (`amount`) is `Int`.
* The six `f32` fields of `ControllerData` are represented by their IEEE-754
  bit patterns (`Nat < 2 ^ 32`): `write_f32`/`read_f32` move exactly those 32
  bits to/from four little-endian bytes, so the byte-level behaviour is
  preserved verbatim.
* `io::Error` values are collapsed to the inductive `ParseError`; each
  constructor corresponds to one distinct error message produced by the
  source (plus `eof` for a failed read).
-/

/-- Errors of the wire codec.  Each constructor stands for one distinct
`io::Error` the source can produce (`invalidMagic` covers both the
"not a valid UTF-8 string" and the "Unrecognized magic string" cases,
which the source distinguishes only by message text). -/
inductive ParseError where
  | eof
  | invalidMagic
  | invalidVersion
  | truncated
  | badChecksum
  | invalidMessageType
  | invalidSlotNumber
  | invalidDeviceType
  | invalidConnectionType
  | invalidBatteryStatus
  | invalidTouchActive
  | invalidConnected
  | invalidRequestType
  | invalidAmount
  | notTerminated
deriving DecidableEq, Repr

/-- A sequential byte reader: the shallow embedding of `Cursor<&[u8]>`.
The state is the list of not-yet-consumed bytes. -/
def P (α : Type) : Type := List Nat → Except ParseError (α × List Nat)

def P.pure {α : Type} (a : α) : P α := fun l => .ok (a, l)

def P.bind {α β : Type} (p : P α) (f : α → P β) : P β := fun l =>
  match p l with
  | .ok (a, r) => f a r
  | .error e => .error e

instance : Monad P where
  pure := P.pure
  bind := P.bind

/-- Abort parsing with error `e` (an `invalid_data_error` in the source). -/
def P.fail {α : Type} (e : ParseError) : P α := fun _ => .error e

@[simp] theorem P.bind_eq {α β : Type} (p : P α) (f : α → P β) :
    (p >>= f) = P.bind p f := rfl

@[simp] theorem P.pure_eq {α : Type} (a : α) :
    (Pure.pure a : P α) = P.pure a := rfl

/-- `read_u8`: consume one byte (error on end of input). -/
def readU8 : P Nat := fun l =>
  match l with
  | [] => .error .eof
  | b :: r => .ok (b, r)

/-- `read_uN::<LittleEndian>`: consume `n` bytes, least significant first. -/
def readLE : Nat → P Nat
  | 0 => P.pure 0
  | n + 1 => P.bind readU8 fun b => P.bind (readLE n) fun v => P.pure (b + 256 * v)

/-- `write_uN::<LittleEndian>`: the `n` little-endian bytes of `x`. -/
def leBytes : Nat → Nat → List Nat
  | 0, _ => []
  | n + 1, x => x % 256 :: leBytes n (x / 256)

@[simp] theorem leBytes_length (n x : Nat) : (leBytes n x).length = n := by
  induction n generalizing x with
  | zero => rfl
  | succ n ih => simp [leBytes, ih]

/-- `p.Produces input a`: parser `p` consumes exactly `input`, yielding `a`. -/
def P.Produces {α : Type} (p : P α) (input : List Nat) (a : α) : Prop :=
  ∀ r, p (input ++ r) = .ok (a, r)

theorem P.Produces.bind {α β : Type} {p : P α} {f : α → P β}
    {i j : List Nat} {a : α} {b : β}
    (hp : p.Produces i a) (hf : (f a).Produces j b) :
    (P.bind p f).Produces (i ++ j) b := by
  intro r
  have h1 := hp (j ++ r)
  simp only [List.append_assoc]
  simp [P.bind, h1, hf r]

theorem P.Produces.pure {α : Type} (a : α) : (P.pure a).Produces [] a := by
  intro r; rfl

theorem readU8_produces (b : Nat) : readU8.Produces [b] b := by
  intro r; rfl

theorem readLE_produces (n x : Nat) (h : x < 256 ^ n) :
    (readLE n).Produces (leBytes n x) x := by
  induction n generalizing x with
  | zero =>
    have : x = 0 := by omega
    subst this
    exact P.Produces.pure 0
  | succ n ih =>
    intro r
    have hx : x / 256 < 256 ^ n := by
      rw [Nat.div_lt_iff_lt_mul (by norm_num)]
      calc x < 256 ^ (n + 1) := h
        _ = 256 ^ n * 256 := by ring
    have hrec := ih (x / 256) hx r
    have hmod : x % 256 + 256 * (x / 256) = x := by omega
    simp [readLE, leBytes, P.bind, readU8, hrec, hmod, P.pure]

/-- `pub const PROTOCOL_VERSION: u16 = 1001`. -/
def PROTOCOL_VERSION : Nat := 1001

inductive MessageSource where
  | Server
  | Client
deriving DecidableEq, Repr

inductive MessageType where
  | ProtocolVersion
  | ConnectedControllers
  | ControllerData
deriving DecidableEq, Repr

inductive SlotState where
  | NotConnected
  | Reserved
  | Connected
deriving DecidableEq, Repr

inductive DeviceType where
  | NotApplicable
  | PartialGyro
  | FullGyro
deriving DecidableEq, Repr

inductive ConnectionType where
  | NotApplicable
  | USB
  | Bluetooth
deriving DecidableEq, Repr

inductive BatteryStatus where
  | NotApplicable
  | Dying
  | Low
  | Medium
  | High
  | Full
  | Charging
  | Charged
deriving DecidableEq, Repr

inductive ControllerDataRequest where
  | ReportAll
  | SlotNumber (slot : Nat)
  | MAC (mac : Nat)
deriving DecidableEq, Repr

structure ControllerInfo where
  slot : Nat
  slot_state : SlotState
  device_type : DeviceType
  connection_type : ConnectionType
  mac_address : Nat
  battery_status : BatteryStatus
deriving DecidableEq, Repr

/-- `#[derive(Default)]` for `ControllerInfo`. -/
def ControllerInfo.default : ControllerInfo :=
  { slot := 0, slot_state := .NotConnected, device_type := .NotApplicable,
    connection_type := .NotApplicable, mac_address := 0,
    battery_status := .NotApplicable }

structure TouchData where
  active : Bool
  id : Nat
  position_x : Nat
  position_y : Nat
deriving DecidableEq, Repr

/-- `#[derive(Default)]` for `TouchData`. -/
def TouchData.default : TouchData :=
  { active := false, id := 0, position_x := 0, position_y := 0 }

/-- `ControllerData`; the six `f32` fields hold IEEE-754 bit patterns. -/
structure ControllerData where
  connected : Bool
  d_pad_left : Bool
  d_pad_down : Bool
  d_pad_right : Bool
  d_pad_up : Bool
  start : Bool
  right_stick_button : Bool
  left_stick_button : Bool
  select : Bool
  square : Bool
  cross : Bool
  circle : Bool
  triangle : Bool
  r1 : Bool
  l1 : Bool
  r2 : Bool
  l2 : Bool
  ps : Nat
  touch : Nat
  left_stick_x : Nat
  left_stick_y : Nat
  right_stick_x : Nat
  right_stick_y : Nat
  analog_d_pad_left : Nat
  analog_d_pad_down : Nat
  analog_d_pad_right : Nat
  analog_d_pad_up : Nat
  analog_square : Nat
  analog_triangle : Nat
  analog_cross : Nat
  analog_circle : Nat
  analog_r1 : Nat
  analog_l1 : Nat
  analog_r2 : Nat
  analog_l2 : Nat
  first_touch : TouchData
  second_touch : TouchData
  motion_data_timestamp : Nat
  accelerometer_x : Nat
  accelerometer_y : Nat
  accelerometer_z : Nat
  gyroscope_pitch : Nat
  gyroscope_yaw : Nat
  gyroscope_roll : Nat
deriving DecidableEq, Repr

/-- `#[derive(Default)]` for `ControllerData`. -/
def ControllerData.default : ControllerData :=
  { connected := false, d_pad_left := false, d_pad_down := false,
    d_pad_right := false, d_pad_up := false, start := false,
    right_stick_button := false, left_stick_button := false, select := false,
    square := false, cross := false, circle := false, triangle := false,
    r1 := false, l1 := false, r2 := false, l2 := false,
    ps := 0, touch := 0, left_stick_x := 0, left_stick_y := 0,
    right_stick_x := 0, right_stick_y := 0,
    analog_d_pad_left := 0, analog_d_pad_down := 0, analog_d_pad_right := 0,
    analog_d_pad_up := 0, analog_square := 0, analog_triangle := 0,
    analog_cross := 0, analog_circle := 0, analog_r1 := 0, analog_l1 := 0,
    analog_r2 := 0, analog_l2 := 0,
    first_touch := TouchData.default, second_touch := TouchData.default,
    motion_data_timestamp := 0, accelerometer_x := 0, accelerometer_y := 0,
    accelerometer_z := 0, gyroscope_pitch := 0, gyroscope_yaw := 0,
    gyroscope_roll := 0 }

inductive MessagePayload where
  | None
  | ProtocolVersion (version : Nat)
  | ConnectedControllersRequest (amount : Int) (slot_numbers : List Nat)
  | ConnectedControllerResponse (controller_info : ControllerInfo)
  | ControllerDataRequest (request : ControllerDataRequest)
  | ControllerData (packet_number : Nat) (controller_info : ControllerInfo)
      (controller_data : ControllerData)
deriving DecidableEq, Repr

structure MessageHeader where
  source : MessageSource
  protocol_version : Nat
  message_length : Nat
  checksum : Nat
  source_id : Nat
deriving DecidableEq, Repr

structure Message where
  header : MessageHeader
  message_type : MessageType
  payload : MessagePayload
deriving DecidableEq, Repr

/-- The 4-byte magic written by `encode_message_header`
(`"DSUS"` for the server, `"DSUC"` for the client). -/
def magicBytes : MessageSource → List Nat
  | .Server => [68, 83, 85, 83]
  | .Client => [68, 83, 85, 67]

/-- The magic-string read of `parse_message_header`: `reader.read` fills a
zeroed 4-byte buffer with at most 4 available bytes, then the string is
matched against `"DSUS"` / `"DSUC"`. -/
def readMagic : P MessageSource := fun l =>
  let buffer := l.take 4 ++ List.replicate (4 - l.length) 0
  if buffer = [68, 83, 85, 83] then .ok (.Server, l.drop 4)
  else if buffer = [68, 83, 85, 67] then .ok (.Client, l.drop 4)
  else .error .invalidMagic

def encode_message_header (h : MessageHeader) : List Nat :=
  magicBytes h.source ++ leBytes 2 h.protocol_version ++
    leBytes 2 h.message_length ++ leBytes 4 h.checksum ++ leBytes 4 h.source_id

def parse_message_header : P MessageHeader := do
  let source ← readMagic
  let protocol_version ← readLE 2
  let message_length ← readLE 2
  let checksum ← readLE 4
  let source_id ← readLE 4
  pure { source, protocol_version, message_length, checksum, source_id }

def messageTypeCode : MessageType → Nat
  | .ProtocolVersion => 0x100000
  | .ConnectedControllers => 0x100001
  | .ControllerData => 0x100002

def encode_message_type (t : MessageType) : List Nat := leBytes 4 (messageTypeCode t)

def parse_message_type : P MessageType := do
  let message_type ← readLE 4
  if message_type = 0x100000 then pure MessageType.ProtocolVersion
  else if message_type = 0x100001 then pure MessageType.ConnectedControllers
  else if message_type = 0x100002 then pure MessageType.ControllerData
  else P.fail .invalidMessageType

def slotStateCode : SlotState → Nat
  | .NotConnected => 0
  | .Reserved => 1
  | .Connected => 2

def deviceTypeCode : DeviceType → Nat
  | .NotApplicable => 0
  | .PartialGyro => 1
  | .FullGyro => 2

def connectionTypeCode : ConnectionType → Nat
  | .NotApplicable => 0
  | .USB => 1
  | .Bluetooth => 2

def batteryStatusCode : BatteryStatus → Nat
  | .NotApplicable => 0x00
  | .Dying => 0x01
  | .Low => 0x02
  | .Medium => 0x03
  | .High => 0x04
  | .Full => 0x05
  | .Charging => 0xEE
  | .Charged => 0xEF

def encode_controller_info (ci : ControllerInfo) : List Nat :=
  leBytes 1 ci.slot ++ leBytes 1 (slotStateCode ci.slot_state) ++
    leBytes 1 (deviceTypeCode ci.device_type) ++
    leBytes 1 (connectionTypeCode ci.connection_type) ++
    leBytes 6 ci.mac_address ++ leBytes 1 (batteryStatusCode ci.battery_status)

/-- The `slot_state` block expression of `parse_controller_info`. -/
def parse_slot_state : P SlotState := do
  let b ← readU8
  if b = 0 then pure SlotState.NotConnected
  else if b = 1 then pure SlotState.Reserved
  else if b = 2 then pure SlotState.Connected
  else P.fail .invalidSlotNumber

/-- The `device_type` block expression of `parse_controller_info`. -/
def parse_device_type : P DeviceType := do
  let b ← readU8
  if b = 0 then pure DeviceType.NotApplicable
  else if b = 1 then pure DeviceType.PartialGyro
  else if b = 2 then pure DeviceType.FullGyro
  else P.fail .invalidDeviceType

/-- The `connection_type` block expression of `parse_controller_info`. -/
def parse_connection_type : P ConnectionType := do
  let b ← readU8
  if b = 0 then pure ConnectionType.NotApplicable
  else if b = 1 then pure ConnectionType.USB
  else if b = 2 then pure ConnectionType.Bluetooth
  else P.fail .invalidConnectionType

/-- The `battery_status` block expression of `parse_controller_info`. -/
def parse_battery_status : P BatteryStatus := do
  let b ← readU8
  if b = 0x00 then pure BatteryStatus.NotApplicable
  else if b = 0x01 then pure BatteryStatus.Dying
  else if b = 0x02 then pure BatteryStatus.Low
  else if b = 0x03 then pure BatteryStatus.Medium
  else if b = 0x04 then pure BatteryStatus.High
  else if b = 0x05 then pure BatteryStatus.Full
  else if b = 0xEE then pure BatteryStatus.Charging
  else if b = 0xEF then pure BatteryStatus.Charged
  else P.fail .invalidBatteryStatus

def parse_controller_info : P ControllerInfo := do
  let slot ← readU8
  if slot > 4 then P.fail .invalidSlotNumber else do
  let slot_state ← parse_slot_state
  let device_type ← parse_device_type
  let connection_type ← parse_connection_type
  let mac_address ← readLE 6
  let battery_status ← parse_battery_status
  pure { slot, slot_state, device_type, connection_type, mac_address,
         battery_status }

def encode_touch_data (td : TouchData) : List Nat :=
  leBytes 1 (cond td.active 1 0) ++ leBytes 1 td.id ++
    leBytes 2 td.position_x ++ leBytes 2 td.position_y

/-- The `active` block expression of `parse_touch_data`. -/
def parse_touch_active : P Bool := do
  let b ← readU8
  if b = 0 then pure false
  else if b = 1 then pure true
  else P.fail .invalidTouchActive

def parse_touch_data : P TouchData := do
  let active ← parse_touch_active
  let id ← readU8
  let position_x ← readLE 2
  let position_y ← readLE 2
  pure { active, id, position_x, position_y }

def encode_controller_data_request (r : ControllerDataRequest) : List Nat :=
  match r with
  | .ReportAll => leBytes 1 0 ++ leBytes 1 0 ++ leBytes 6 0
  | .SlotNumber slot => leBytes 1 1 ++ leBytes 1 slot ++ leBytes 6 0
  | .MAC mac => leBytes 1 2 ++ leBytes 1 0 ++ leBytes 6 mac

def parse_controller_data_request : P ControllerDataRequest := do
  let request_type ← readU8
  if request_type = 0 then pure ControllerDataRequest.ReportAll
  else if request_type = 1 then do
    let slot_number ← readU8
    if slot_number ≥ 4 then P.fail .invalidSlotNumber
    else pure (ControllerDataRequest.SlotNumber slot_number)
  else if request_type = 2 then do
    let mac_address ← readLE 6
    pure (ControllerDataRequest.MAC mac_address)
  else P.fail .invalidRequestType

/-- `bit_array_to_u8`: MSB-first packing of eight flags. -/
def bit_array_to_u8 (input : List Bool) : Nat :=
  (cond (input.getD 0 false) 0b10000000 0) |||
  (cond (input.getD 1 false) 0b01000000 0) |||
  (cond (input.getD 2 false) 0b00100000 0) |||
  (cond (input.getD 3 false) 0b00010000 0) |||
  (cond (input.getD 4 false) 0b00001000 0) |||
  (cond (input.getD 5 false) 0b00000100 0) |||
  (cond (input.getD 6 false) 0b00000010 0) |||
  (cond (input.getD 7 false) 0b00000001 0)

def encode_controller_data (packet_number : Nat) (cd : ControllerData) :
    List Nat :=
  leBytes 1 (cond cd.connected 1 0) ++
  leBytes 4 packet_number ++
  leBytes 1 (bit_array_to_u8 [cd.d_pad_left, cd.d_pad_down, cd.d_pad_right,
    cd.d_pad_up, cd.start, cd.right_stick_button, cd.left_stick_button,
    cd.select]) ++
  leBytes 1 (bit_array_to_u8 [cd.square, cd.cross, cd.circle, cd.triangle,
    cd.r1, cd.l1, cd.r2, cd.l2]) ++
  leBytes 1 cd.ps ++
  leBytes 1 cd.touch ++
  leBytes 1 cd.left_stick_x ++
  leBytes 1 cd.left_stick_y ++
  leBytes 1 cd.right_stick_x ++
  leBytes 1 cd.right_stick_y ++
  leBytes 1 cd.analog_d_pad_left ++
  leBytes 1 cd.analog_d_pad_down ++
  leBytes 1 cd.analog_d_pad_right ++
  leBytes 1 cd.analog_d_pad_up ++
  leBytes 1 cd.analog_square ++
  leBytes 1 cd.analog_cross ++
  leBytes 1 cd.analog_circle ++
  leBytes 1 cd.analog_triangle ++
  leBytes 1 cd.analog_r1 ++
  leBytes 1 cd.analog_l1 ++
  leBytes 1 cd.analog_r2 ++
  leBytes 1 cd.analog_l2 ++
  encode_touch_data cd.first_touch ++
  encode_touch_data cd.second_touch ++
  leBytes 8 cd.motion_data_timestamp ++
  leBytes 4 cd.accelerometer_x ++
  leBytes 4 cd.accelerometer_y ++
  leBytes 4 cd.accelerometer_z ++
  leBytes 4 cd.gyroscope_pitch ++
  leBytes 4 cd.gyroscope_yaw ++
  leBytes 4 cd.gyroscope_roll

/-- The `connected` block expression of `parse_controller_data`. -/
def parse_connected : P Bool := do
  let b ← readU8
  if b = 0 then pure false
  else if b = 1 then pure true
  else P.fail .invalidConnected

def parse_controller_data : P (Nat × ControllerData) := do
  let connected ← parse_connected
  let packet_number ← readLE 4
  let button_data ← readU8
  let d_pad_left := (button_data &&& 0b10000000) != 0
  let d_pad_down := (button_data &&& 0b01000000) != 0
  let d_pad_right := (button_data &&& 0b00100000) != 0
  let d_pad_up := (button_data &&& 0b00010000) != 0
  let start := (button_data &&& 0b00001000) != 0
  let right_stick_button := (button_data &&& 0b00000100) != 0
  let left_stick_button := (button_data &&& 0b00000010) != 0
  let select := (button_data &&& 0b00000001) != 0
  let button_data ← readU8
  let square := (button_data &&& 0b10000000) != 0
  let cross := (button_data &&& 0b01000000) != 0
  let circle := (button_data &&& 0b00100000) != 0
  let triangle := (button_data &&& 0b00010000) != 0
  let r1 := (button_data &&& 0b00001000) != 0
  let l1 := (button_data &&& 0b00000100) != 0
  let r2 := (button_data &&& 0b00000010) != 0
  let l2 := (button_data &&& 0b00000001) != 0
  let ps ← readU8
  let touch ← readU8
  let left_stick_x ← readU8
  let left_stick_y ← readU8
  let right_stick_x ← readU8
  let right_stick_y ← readU8
  let analog_d_pad_left ← readU8
  let analog_d_pad_down ← readU8
  let analog_d_pad_right ← readU8
  let analog_d_pad_up ← readU8
  let analog_square ← readU8
  let analog_cross ← readU8
  let analog_circle ← readU8
  let analog_triangle ← readU8
  let analog_r1 ← readU8
  let analog_l1 ← readU8
  let analog_r2 ← readU8
  let analog_l2 ← readU8
  let first_touch ← parse_touch_data
  let second_touch ← parse_touch_data
  let motion_data_timestamp ← readLE 8
  let accelerometer_x ← readLE 4
  let accelerometer_y ← readLE 4
  let accelerometer_z ← readLE 4
  let gyroscope_pitch ← readLE 4
  let gyroscope_yaw ← readLE 4
  let gyroscope_roll ← readLE 4
  pure (packet_number,
    { connected, d_pad_left, d_pad_down, d_pad_right, d_pad_up, start,
      right_stick_button, left_stick_button, select, square, cross, circle,
      triangle, r1, l1, r2, l2, ps, touch, left_stick_x, left_stick_y,
      right_stick_x, right_stick_y, analog_d_pad_left, analog_d_pad_down,
      analog_d_pad_right, analog_d_pad_up, analog_square, analog_triangle,
      analog_cross, analog_circle, analog_r1, analog_l1, analog_r2,
      analog_l2, first_touch, second_touch, motion_data_timestamp,
      accelerometer_x, accelerometer_y, accelerometer_z, gyroscope_pitch,
      gyroscope_yaw, gyroscope_roll })

/-- `write_i32::<LittleEndian>`: two's-complement little-endian bytes. -/
def leI32 (x : Int) : List Nat := leBytes 4 (x % 2 ^ 32).toNat

/-- `read_i32::<LittleEndian>`. -/
def readI32 : P Int := do
  let v ← readLE 4
  pure (if v < 2 ^ 31 then (v : Int) else (v : Int) - 2 ^ 32)

/-- The slot-number loop of the client → server `ConnectedControllers`
parse path: read `n` slot bytes, each required to be `< 4`. -/
def read_slot_numbers : Nat → P (List Nat)
  | 0 => P.pure []
  | n + 1 => do
    let slot_number ← readU8
    if slot_number ≥ 4 then P.fail .invalidSlotNumber else do
    let rest ← read_slot_numbers n
    pure (slot_number :: rest)

def encode_message_payload : MessagePayload → Except ParseError (List Nat)
  | .None => .ok []
  | .ProtocolVersion version => .ok (leBytes 2 version)
  | .ConnectedControllersRequest amount slot_numbers =>
    if amount < 0 ∨ 4 < amount then .error .invalidAmount
    else .ok (leI32 amount ++ (slot_numbers.take amount.toNat).map (· % 256))
  | .ConnectedControllerResponse controller_info =>
    .ok (encode_controller_info controller_info ++ leBytes 1 0)
  | .ControllerDataRequest request => .ok (encode_controller_data_request request)
  | .ControllerData packet_number controller_info controller_data =>
    .ok (encode_controller_info controller_info ++
      encode_controller_data packet_number controller_data)

def parse_message_payload (message_source : MessageSource)
    (message_type : MessageType) : P MessagePayload :=
  match message_source with
  | .Server =>
    match message_type with
    | .ProtocolVersion => do
      let protocol_version ← readLE 2
      pure (MessagePayload.ProtocolVersion protocol_version)
    | .ConnectedControllers => do
      let controller_info ← parse_controller_info
      let terminating_byte ← readU8
      if terminating_byte ≠ 0 then P.fail .notTerminated
      else pure (MessagePayload.ConnectedControllerResponse controller_info)
    | .ControllerData => do
      let controller_info ← parse_controller_info
      let pd ← parse_controller_data
      pure (MessagePayload.ControllerData pd.1 controller_info pd.2)
  | .Client =>
    match message_type with
    | .ProtocolVersion => P.pure MessagePayload.None
    | .ConnectedControllers => do
      let amount ← readI32
      if amount < 0 ∨ 4 < amount then P.fail .invalidAmount else do
      let read ← read_slot_numbers amount.toNat
      pure (MessagePayload.ConnectedControllersRequest amount
        (read ++ List.replicate (4 - amount.toNat) 0))
    | .ControllerData => do
      let controller_data_request ← parse_controller_data_request
      pure (MessagePayload.ControllerDataRequest controller_data_request)

/-- Reflected CRC-32 (IEEE): one bit of the shift register. -/
def crcBitStep (c : Nat) : Nat :=
  if c % 2 = 1 then (c / 2) ^^^ 0xEDB88320 else c / 2

/-- One input byte of `crc::crc32::checksum_ieee`. -/
def crcByteStep (c b : Nat) : Nat := crcBitStep^[8] (c ^^^ b)

def crc32_update (c : Nat) (bytes : List Nat) : Nat := bytes.foldl crcByteStep c

/-- `crc::crc32::checksum_ieee`: init `0xFFFFFFFF`, final xor `0xFFFFFFFF`. -/
def checksum_ieee (bytes : List Nat) : Nat :=
  crc32_update 0xFFFFFFFF bytes ^^^ 0xFFFFFFFF

/-- The source's `compute_checksum` zeroes bytes `8..12` of a copy. -/
def zero_checksum_field (packet : List Nat) : List Nat :=
  (((packet.set 8 0).set 9 0).set 10 0).set 11 0

def compute_checksum (packet : List Nat) : Nat :=
  checksum_ieee (zero_checksum_field packet)

/-- Splice `bs` into `l` at offset `i` (the source's
`writer[i..i+bs.len()].swap_with_slice`). -/
def patchBytes (l : List Nat) (i : Nat) (bs : List Nat) : List Nat :=
  l.take i ++ bs ++ l.drop (i + bs.length)

/-- `encode_message`: serialise header, type and payload, then patch the
length field (bytes 6..8, `(len - 16) as u16`) and the checksum field
(bytes 8..12). -/
def encode_message (message : Message) : Except ParseError (List Nat) :=
  match encode_message_payload message.payload with
  | .error e => .error e
  | .ok payload =>
    let writer := encode_message_header message.header ++
      encode_message_type message.message_type ++ payload
    let length := (writer.length - 16) % 2 ^ 16
    let writer := patchBytes writer 6 (leBytes 2 length)
    let checksum := compute_checksum writer
    let writer := patchBytes writer 8 (leBytes 4 checksum)
    .ok writer

/-- `parse_message`: parse the header, then check the protocol version, the
length lower bound and (optionally) the checksum over the whole received
packet, then parse type and payload from the cursor. -/
def parse_message (message_source : MessageSource) (packet : List Nat)
    (verify_checksum : Bool) : Except ParseError Message :=
  match parse_message_header packet with
  | .error e => .error e
  | .ok (header, rest) =>
    if header.protocol_version ≠ PROTOCOL_VERSION then .error .invalidVersion
    else if packet.length - 16 < header.message_length then .error .truncated
    else if verify_checksum = true ∧ compute_checksum packet ≠ header.checksum then
      .error .badChecksum
    else
      match parse_message_type rest with
      | .error e => .error e
      | .ok (message_type, rest2) =>
        match parse_message_payload message_source message_type rest2 with
        | .error e => .error e
        | .ok (payload, _) => .ok { header, message_type, payload }

instance {e a : Type} [DecidableEq e] [DecidableEq a] : DecidableEq (Except e a)
  | .ok x, .ok y => if h : x = y then .isTrue (by rw [h]) else .isFalse (by simp [h])
  | .ok _, .error _ => .isFalse (by simp)
  | .error _, .ok _ => .isFalse (by simp)
  | .error x, .error y =>
    if h : x = y then .isTrue (by rw [h]) else .isFalse (by simp [h])

/-- `p` is stable under appending input: parsing a packet with extra trailing
bytes succeeds with the same value, the trailing bytes left unread. -/
def P.Stable {α : Type} (p : P α) : Prop :=
  ∀ l a r, p l = .ok (a, r) → ∀ e, p (l ++ e) = .ok (a, r ++ e)

theorem P.stable_pure {α : Type} (a : α) : (P.pure a).Stable := by
  intro l b r h e
  simp only [P.pure, Except.ok.injEq, Prod.mk.injEq] at h ⊢
  exact ⟨h.1, by rw [h.2]⟩

theorem P.stable_fail {α : Type} (err : ParseError) : (P.fail err : P α).Stable := by
  intro l b r h e
  simp [P.fail] at h

theorem P.stable_bind {α β : Type} {p : P α} {f : α → P β}
    (hp : p.Stable) (hf : ∀ a, (f a).Stable) : (P.bind p f).Stable := by
  intro l b r h e
  unfold P.bind at h ⊢
  cases hpl : p l with
  | error err => rw [hpl] at h; exact absurd h (by simp)
  | ok ar =>
    obtain ⟨a, r1⟩ := ar
    rw [hpl] at h
    rw [hp l a r1 hpl e]
    exact hf a r1 b r h e

theorem readU8_stable : readU8.Stable := by
  intro l a r h e
  cases l with
  | nil => simp [readU8] at h
  | cons b t =>
    simp only [readU8, Except.ok.injEq, Prod.mk.injEq] at h
    simp [readU8, h.1, h.2]

theorem readLE_stable (n : Nat) : (readLE n).Stable := by
  induction n with
  | zero => exact P.stable_pure 0
  | succ n ih =>
    exact P.stable_bind readU8_stable fun b =>
      P.stable_bind ih fun v => P.stable_pure _

theorem readMagic_stable : readMagic.Stable := by
  intro l a r h e
  rcases l with _ | ⟨b0, _ | ⟨b1, _ | ⟨b2, _ | ⟨b3, t⟩⟩⟩⟩
  · simp [readMagic] at h
  · simp [readMagic] at h
  · simp [readMagic] at h
  · simp [readMagic] at h
  · simp only [readMagic, List.length_cons, List.cons_append] at h ⊢
    have hz : 4 - (t.length + 1 + 1 + 1 + 1) = 0 := by omega
    have hz2 : 4 - ((t ++ e).length + 1 + 1 + 1 + 1) = 0 := by omega
    simp only [hz, hz2, List.replicate, List.take_succ_cons, List.take_zero,
      List.append_nil] at h ⊢
    split at h
    · simp only [Except.ok.injEq, Prod.mk.injEq, List.drop_succ_cons,
        List.drop_zero] at h
      simp_all
    · split at h
      · simp only [Except.ok.injEq, Prod.mk.injEq, List.drop_succ_cons,
          List.drop_zero] at h
        simp_all
      · simp at h

theorem P.stable_ite {α : Type} {c : Prop} [Decidable c] {p q : P α}
    (hp : p.Stable) (hq : q.Stable) : (if c then p else q).Stable := by
  by_cases h : c
  · simpa [h] using hp
  · simpa [h] using hq

theorem parse_message_header_stable : parse_message_header.Stable :=
  P.stable_bind readMagic_stable fun _ =>
  P.stable_bind (readLE_stable 2) fun _ =>
  P.stable_bind (readLE_stable 2) fun _ =>
  P.stable_bind (readLE_stable 4) fun _ =>
  P.stable_bind (readLE_stable 4) fun _ =>
  P.stable_pure _

theorem parse_message_type_stable : parse_message_type.Stable :=
  P.stable_bind (readLE_stable 4) fun _ =>
  P.stable_ite (P.stable_pure _) (P.stable_ite (P.stable_pure _)
    (P.stable_ite (P.stable_pure _) (P.stable_fail _)))

theorem parse_slot_state_stable : parse_slot_state.Stable :=
  P.stable_bind readU8_stable fun _ =>
  P.stable_ite (P.stable_pure _) (P.stable_ite (P.stable_pure _)
    (P.stable_ite (P.stable_pure _) (P.stable_fail _)))

theorem parse_device_type_stable : parse_device_type.Stable :=
  P.stable_bind readU8_stable fun _ =>
  P.stable_ite (P.stable_pure _) (P.stable_ite (P.stable_pure _)
    (P.stable_ite (P.stable_pure _) (P.stable_fail _)))

theorem parse_connection_type_stable : parse_connection_type.Stable :=
  P.stable_bind readU8_stable fun _ =>
  P.stable_ite (P.stable_pure _) (P.stable_ite (P.stable_pure _)
    (P.stable_ite (P.stable_pure _) (P.stable_fail _)))

theorem parse_battery_status_stable : parse_battery_status.Stable :=
  P.stable_bind readU8_stable fun _ =>
  P.stable_ite (P.stable_pure _) (P.stable_ite (P.stable_pure _)
    (P.stable_ite (P.stable_pure _) (P.stable_ite (P.stable_pure _)
      (P.stable_ite (P.stable_pure _) (P.stable_ite (P.stable_pure _)
        (P.stable_ite (P.stable_pure _) (P.stable_ite (P.stable_pure _)
          (P.stable_fail _))))))))

theorem parse_controller_info_stable : parse_controller_info.Stable :=
  P.stable_bind readU8_stable fun _ =>
  P.stable_ite (P.stable_fail _) (
    P.stable_bind parse_slot_state_stable fun _ =>
    P.stable_bind parse_device_type_stable fun _ =>
    P.stable_bind parse_connection_type_stable fun _ =>
    P.stable_bind (readLE_stable 6) fun _ =>
    P.stable_bind parse_battery_status_stable fun _ =>
    P.stable_pure _)

theorem parse_touch_active_stable : parse_touch_active.Stable :=
  P.stable_bind readU8_stable fun _ =>
  P.stable_ite (P.stable_pure _) (P.stable_ite (P.stable_pure _)
    (P.stable_fail _))

theorem parse_touch_data_stable : parse_touch_data.Stable :=
  P.stable_bind parse_touch_active_stable fun _ =>
  P.stable_bind readU8_stable fun _ =>
  P.stable_bind (readLE_stable 2) fun _ =>
  P.stable_bind (readLE_stable 2) fun _ =>
  P.stable_pure _

theorem parse_connected_stable : parse_connected.Stable :=
  P.stable_bind readU8_stable fun _ =>
  P.stable_ite (P.stable_pure _) (P.stable_ite (P.stable_pure _)
    (P.stable_fail _))

theorem parse_controller_data_stable : parse_controller_data.Stable :=
  P.stable_bind parse_connected_stable fun _ =>
  P.stable_bind (readLE_stable 4) fun _ =>
  P.stable_bind readU8_stable fun _ =>
  P.stable_bind readU8_stable fun _ =>
  P.stable_bind readU8_stable fun _ =>
  P.stable_bind readU8_stable fun _ =>
  P.stable_bind readU8_stable fun _ =>
  P.stable_bind readU8_stable fun _ =>
  P.stable_bind readU8_stable fun _ =>
  P.stable_bind readU8_stable fun _ =>
  P.stable_bind readU8_stable fun _ =>
  P.stable_bind readU8_stable fun _ =>
  P.stable_bind readU8_stable fun _ =>
  P.stable_bind readU8_stable fun _ =>
  P.stable_bind readU8_stable fun _ =>
  P.stable_bind readU8_stable fun _ =>
  P.stable_bind readU8_stable fun _ =>
  P.stable_bind readU8_stable fun _ =>
  P.stable_bind readU8_stable fun _ =>
  P.stable_bind readU8_stable fun _ =>
  P.stable_bind readU8_stable fun _ =>
  P.stable_bind readU8_stable fun _ =>
  P.stable_bind parse_touch_data_stable fun _ =>
  P.stable_bind parse_touch_data_stable fun _ =>
  P.stable_bind (readLE_stable 8) fun _ =>
  P.stable_bind (readLE_stable 4) fun _ =>
  P.stable_bind (readLE_stable 4) fun _ =>
  P.stable_bind (readLE_stable 4) fun _ =>
  P.stable_bind (readLE_stable 4) fun _ =>
  P.stable_bind (readLE_stable 4) fun _ =>
  P.stable_bind (readLE_stable 4) fun _ =>
  P.stable_pure _

theorem parse_controller_data_request_stable :
    parse_controller_data_request.Stable :=
  P.stable_bind readU8_stable fun _ =>
  P.stable_ite (P.stable_pure _) (P.stable_ite
    (P.stable_bind readU8_stable fun _ =>
      P.stable_ite (P.stable_fail _) (P.stable_pure _))
    (P.stable_ite
      (P.stable_bind (readLE_stable 6) fun _ => P.stable_pure _)
      (P.stable_fail _)))

theorem readI32_stable : readI32.Stable :=
  P.stable_bind (readLE_stable 4) fun _ => P.stable_pure _

theorem read_slot_numbers_stable (n : Nat) : (read_slot_numbers n).Stable := by
  induction n with
  | zero => exact P.stable_pure []
  | succ n ih =>
    exact P.stable_bind readU8_stable fun _ =>
      P.stable_ite (P.stable_fail _)
        (P.stable_bind ih fun _ => P.stable_pure _)

theorem parse_message_payload_stable (s : MessageSource) (t : MessageType) :
    (parse_message_payload s t).Stable := by
  cases s <;> cases t
  · exact P.stable_bind (readLE_stable 2) fun _ => P.stable_pure _
  · exact P.stable_bind parse_controller_info_stable fun _ =>
      P.stable_bind readU8_stable fun _ =>
        P.stable_ite (P.stable_fail _) (P.stable_pure _)
  · exact P.stable_bind parse_controller_info_stable fun _ =>
      P.stable_bind parse_controller_data_stable fun _ => P.stable_pure _
  · exact P.stable_pure _
  · exact P.stable_bind readI32_stable fun a =>
      P.stable_ite (P.stable_fail _)
        (P.stable_bind (read_slot_numbers_stable a.toNat) fun _ =>
          P.stable_pure _)
  · exact P.stable_bind parse_controller_data_request_stable fun _ =>
      P.stable_pure _

theorem parse_message_append {src : MessageSource} {p : List Nat} {m : Message}
    (e : List Nat) (h : parse_message src p false = .ok m) :
    parse_message src (p ++ e) false = .ok m ∧
      (parse_message src (p ++ e) true = .ok m ∨
        parse_message src (p ++ e) true = .error .badChecksum) := by
  unfold parse_message at h
  cases hh : parse_message_header p with
  | error err => rw [hh] at h; exact absurd h (by simp)
  | ok hr =>
    obtain ⟨header, rest⟩ := hr
    rw [hh] at h
    dsimp only at h
    by_cases hv : header.protocol_version ≠ PROTOCOL_VERSION
    · rw [if_pos hv] at h; exact absurd h (by simp)
    rw [if_neg hv] at h
    by_cases hl : p.length - 16 < header.message_length
    · rw [if_pos hl] at h; exact absurd h (by simp)
    rw [if_neg hl] at h
    rw [if_neg (by simp : ¬ ((false = true) ∧
      compute_checksum p ≠ header.checksum))] at h
    cases ht : parse_message_type rest with
    | error err => rw [ht] at h; exact absurd h (by simp)
    | ok tr =>
      obtain ⟨message_type, rest2⟩ := tr
      rw [ht] at h
      dsimp only at h
      cases hp : parse_message_payload src message_type rest2 with
      | error err => rw [hp] at h; exact absurd h (by simp)
      | ok pr =>
        obtain ⟨payload, rest3⟩ := pr
        rw [hp] at h
        dsimp only at h
        have hl2 : ¬ ((p ++ e).length - 16 < header.message_length) := by
          rw [List.length_append]; omega
        have hstep : ∀ v : Bool,
            ¬ (v = true ∧ compute_checksum (p ++ e) ≠ header.checksum) →
            parse_message src (p ++ e) v = .ok m := by
          intro v hnc
          unfold parse_message
          rw [parse_message_header_stable p _ _ hh e]
          dsimp only
          rw [if_neg hv, if_neg hl2, if_neg hnc]
          rw [parse_message_type_stable rest _ _ ht e]
          dsimp only
          rw [parse_message_payload_stable src message_type rest2 _ _ hp e]
          dsimp only
          exact h
        refine ⟨hstep false (by simp), ?_⟩
        by_cases hc : compute_checksum (p ++ e) ≠ header.checksum
        · right
          unfold parse_message
          rw [parse_message_header_stable p _ _ hh e]
          dsimp only
          rw [if_neg hv, if_neg hl2, if_pos ⟨rfl, hc⟩]
        · exact Or.inl (hstep true (by simp [hc]))

theorem div_two_xor (a b : Nat) : (a ^^^ b) / 2 = a / 2 ^^^ b / 2 := by
  apply Nat.eq_of_testBit_eq
  intro i
  simp [Nat.testBit_div_two, Nat.testBit_xor]

theorem mod_two_xor (a b : Nat) : (a ^^^ b) % 2 = (a % 2) ^^^ (b % 2) := by
  rw [Nat.xor_mod_two_eq, Nat.add_mod]
  rcases Nat.mod_two_eq_zero_or_one a with ha | ha <;>
    rcases Nat.mod_two_eq_zero_or_one b with hb | hb <;>
    rw [ha, hb] <;> decide

theorem xor_lt_32 {a b : Nat} (ha : a < 2 ^ 32) (hb : b < 2 ^ 32) :
    a ^^^ b < 2 ^ 32 := Nat.xor_lt_two_pow ha hb

theorem crcBitStep_xor (a b : Nat) :
    crcBitStep (a ^^^ b) = crcBitStep a ^^^ crcBitStep b := by
  unfold crcBitStep
  rw [mod_two_xor, div_two_xor]
  rcases Nat.mod_two_eq_zero_or_one a with ha | ha <;>
    rcases Nat.mod_two_eq_zero_or_one b with hb | hb <;>
    simp [ha, hb]
  · rw [Nat.xor_assoc]
  · rw [Nat.xor_assoc, Nat.xor_comm (b / 2) 3988292384, ← Nat.xor_assoc]
  · rw [Nat.xor_assoc, Nat.xor_comm 3988292384 (b / 2 ^^^ 3988292384),
      Nat.xor_assoc (b / 2), Nat.xor_self, Nat.xor_zero]

theorem crcBitStep_iterate_xor (n : Nat) (a b : Nat) :
    crcBitStep^[n] (a ^^^ b) = crcBitStep^[n] a ^^^ crcBitStep^[n] b := by
  induction n generalizing a b with
  | zero => rfl
  | succ n ih => simp [Function.iterate_succ_apply, crcBitStep_xor, ih]

theorem crcByteStep_xor (c1 c2 b1 b2 : Nat) :
    crcByteStep (c1 ^^^ c2) (b1 ^^^ b2) = crcByteStep c1 b1 ^^^ crcByteStep c2 b2 := by
  unfold crcByteStep
  rw [← crcBitStep_iterate_xor]
  congr 1
  rw [Nat.xor_assoc, Nat.xor_comm c2 (b1 ^^^ b2), Nat.xor_assoc b1,
    Nat.xor_comm b2 c2, ← Nat.xor_assoc, ← Nat.xor_assoc]

theorem crc32_update_xor (c1 c2 : Nat) (l1 l2 : List Nat)
    (h : l1.length = l2.length) :
    crc32_update (c1 ^^^ c2) (List.zipWith (· ^^^ ·) l1 l2) =
      crc32_update c1 l1 ^^^ crc32_update c2 l2 := by
  induction l1 generalizing l2 c1 c2 with
  | nil =>
    cases l2 with
    | nil => rfl
    | cons x t => simp at h
  | cons x t ih =>
    cases l2 with
    | nil => simp at h
    | cons y u =>
      simp only [List.length_cons] at h
      simp only [List.zipWith_cons_cons, crc32_update, List.foldl_cons]
      rw [← crc32_update, ← crc32_update, ← crc32_update, crcByteStep_xor]
      exact ih _ _ _ (by omega)

theorem crcBitStep_zero : crcBitStep 0 = 0 := rfl

theorem crcBitStep_iterate_zero (n : Nat) : crcBitStep^[n] 0 = 0 := by
  induction n with
  | zero => rfl
  | succ n ih => simp [Function.iterate_succ_apply, crcBitStep_zero, ih]

theorem crcByteStep_zero : crcByteStep 0 0 = 0 := by
  unfold crcByteStep
  simp [crcBitStep_iterate_zero]

theorem crcBitStep_lt {c : Nat} (h : c < 2 ^ 32) : crcBitStep c < 2 ^ 32 := by
  unfold crcBitStep
  split
  · exact xor_lt_32 (by omega) (by norm_num)
  · omega

theorem crcBitStep_eq_zero {c : Nat} (h : c < 2 ^ 32)
    (hz : crcBitStep c = 0) : c = 0 := by
  unfold crcBitStep at hz
  split at hz
  · have : c / 2 = 3988292384 := by
      have := Nat.xor_eq_zero.mp hz
      simpa using this
    omega
  · omega

theorem crcBitStep_iterate_ne_zero (n : Nat) {c : Nat} (h : c < 2 ^ 32)
    (hc : c ≠ 0) : crcBitStep^[n] c ≠ 0 ∧ crcBitStep^[n] c < 2 ^ 32 := by
  induction n generalizing c with
  | zero => exact ⟨hc, h⟩
  | succ n ih =>
    rw [Function.iterate_succ_apply]
    exact ih (crcBitStep_lt h) (fun hz => hc (crcBitStep_eq_zero h hz))

theorem crcByteStep_ne_zero {c : Nat} (h : c < 2 ^ 32) (hc : c ≠ 0) :
    crcByteStep c 0 ≠ 0 ∧ crcByteStep c 0 < 2 ^ 32 := by
  unfold crcByteStep
  simpa using crcBitStep_iterate_ne_zero 8 h hc

theorem crc32_update_zeros_ne_zero (z : List Nat) {c : Nat}
    (hz : ∀ x ∈ z, x = 0) (hc : c ≠ 0) (hlt : c < 2 ^ 32) :
    crc32_update c z ≠ 0 := by
  induction z generalizing c with
  | nil => exact hc
  | cons y u ih =>
    have hy : y = 0 := hz y (by simp)
    simp only [crc32_update, List.foldl_cons, hy]
    have hstep := crcByteStep_ne_zero hlt hc
    exact ih (fun x hx => hz x (by simp [hx])) hstep.1 hstep.2

/-- A buffer with a single nonzero byte has nonzero raw CRC remainder. -/
theorem crc32_update_single_ne_zero (z1 z2 : List Nat) (d : Nat)
    (hz1 : ∀ x ∈ z1, x = 0) (hz2 : ∀ x ∈ z2, x = 0)
    (hd : d ≠ 0) (hdlt : d < 2 ^ 32) :
    crc32_update 0 (z1 ++ d :: z2) ≠ 0 := by
  have hzero : crc32_update 0 z1 = 0 := by
    induction z1 with
    | nil => rfl
    | cons x t ih =>
      have hx : x = 0 := hz1 x (by simp)
      simp only [crc32_update, List.foldl_cons, hx, crcByteStep_zero]
      exact ih (fun y hy => hz1 y (by simp [hy]))
  have step1 : crc32_update 0 (z1 ++ d :: z2) =
      crc32_update (crcByteStep 0 d) z2 := by
    unfold crc32_update
    rw [List.foldl_append]
    rw [show List.foldl crcByteStep 0 z1 = 0 from hzero]
    simp [List.foldl_cons]
  rw [step1]
  have hfirst : crcByteStep 0 d ≠ 0 ∧ crcByteStep 0 d < 2 ^ 32 := by
    unfold crcByteStep
    simpa using crcBitStep_iterate_ne_zero 8 hdlt hd
  exact crc32_update_zeros_ne_zero z2 hz2 hfirst.1 hfirst.2

theorem zipWith_xor_self (l : List Nat) :
    ∀ x ∈ List.zipWith (· ^^^ ·) l l, x = 0 := by
  induction l with
  | nil => simp
  | cons y u ih =>
    intro x hx
    simp only [List.zipWith_cons_cons, Nat.xor_self, List.mem_cons] at hx
    rcases hx with h | h
    · exact h
    · exact ih x h

theorem checksum_ieee_flip_ne (pre suf : List Nat) {b b' : Nat} (hne : b ≠ b')
    (hb : b < 2 ^ 32) (hb' : b' < 2 ^ 32) :
    checksum_ieee (pre ++ b :: suf) ≠ checksum_ieee (pre ++ b' :: suf) := by
  intro heq
  unfold checksum_ieee at heq
  have h1 : crc32_update 0xFFFFFFFF (pre ++ b :: suf) =
      crc32_update 0xFFFFFFFF (pre ++ b' :: suf) := by
    exact Nat.xor_left_inj.mp heq
  have h2 : crc32_update 0xFFFFFFFF (pre ++ b :: suf) ^^^
      crc32_update 0xFFFFFFFF (pre ++ b' :: suf) = 0 := by
    rw [h1, Nat.xor_self]
  rw [← crc32_update_xor _ _ _ _ (by simp)] at h2
  rw [Nat.xor_self] at h2
  rw [List.zipWith_append _ _ _ _ _ rfl] at h2
  simp only [List.zipWith_cons_cons] at h2
  exact crc32_update_single_ne_zero _ _ _ (zipWith_xor_self pre)
    (zipWith_xor_self suf) (by
      intro hz
      exact hne (Nat.xor_eq_zero.mp hz))
    (xor_lt_32 hb hb') h2

theorem set_append_left (l1 l2 : List Nat) (i : Nat) (v : Nat)
    (h : i < l1.length) : (l1 ++ l2).set i v = l1.set i v ++ l2 := by
  induction l1 generalizing i with
  | nil => simp at h
  | cons x t ih =>
    cases i with
    | zero => simp
    | succ j =>
      simp only [List.cons_append, List.set_cons_succ]
      rw [ih j (by simpa using h)]

theorem zero_checksum_field_append (pre suf : List Nat) (h : 12 ≤ pre.length) :
    zero_checksum_field (pre ++ suf) = zero_checksum_field pre ++ suf := by
  unfold zero_checksum_field
  rw [set_append_left _ _ 8 0 (by omega)]
  rw [set_append_left _ _ 9 0 (by simp only [List.length_set]; omega)]
  rw [set_append_left _ _ 10 0 (by simp only [List.length_set]; omega)]
  rw [set_append_left _ _ 11 0 (by simp only [List.length_set]; omega)]

theorem compute_checksum_flip_ne (pre suf : List Nat) {b b' : Nat}
    (h12 : 12 ≤ pre.length) (hne : b ≠ b') (hb : b < 2 ^ 32)
    (hb' : b' < 2 ^ 32) :
    compute_checksum (pre ++ b :: suf) ≠ compute_checksum (pre ++ b' :: suf) := by
  unfold compute_checksum
  rw [zero_checksum_field_append pre (b :: suf) h12,
    zero_checksum_field_append pre (b' :: suf) h12]
  exact checksum_ieee_flip_ne _ _ hne hb hb'

theorem readLE_consumes (n : Nat) {l r : List Nat} {v : Nat}
    (h : readLE n l = .ok (v, r)) : r = l.drop n ∧ n ≤ l.length := by
  induction n generalizing l v r with
  | zero =>
    simp only [readLE, P.pure, Except.ok.injEq, Prod.mk.injEq] at h
    exact ⟨h.2.symm, by omega⟩
  | succ n ih =>
    cases l with
    | nil => simp [readLE, P.bind, readU8] at h
    | cons x t =>
      simp only [readLE, P.bind, readU8] at h
      cases hrec : readLE n t with
      | error err => rw [hrec] at h; simp at h
      | ok vr =>
        obtain ⟨v2, r2⟩ := vr
        rw [hrec] at h
        simp only [P.pure, Except.ok.injEq, Prod.mk.injEq] at h
        obtain ⟨hd, ht⟩ := ih hrec
        constructor
        · rw [← h.2, hd, List.drop_succ_cons]
        · simp only [List.length_cons]; omega

theorem readMagic_ok {l r : List Nat} {s : MessageSource}
    (h : readMagic l = .ok (s, r)) :
    l.take 4 = magicBytes s ∧ r = l.drop 4 ∧ 4 ≤ l.length := by
  rcases l with _ | ⟨b0, _ | ⟨b1, _ | ⟨b2, _ | ⟨b3, t⟩⟩⟩⟩
  · simp [readMagic] at h
  · simp [readMagic] at h
  · simp [readMagic] at h
  · simp [readMagic] at h
  · simp only [readMagic, List.length_cons] at h
    have hz : 4 - (t.length + 1 + 1 + 1 + 1) = 0 := by omega
    simp only [hz, List.replicate, List.take_succ_cons, List.take_zero,
      List.append_nil] at h
    split at h
    · rename_i hcond
      simp only [Except.ok.injEq, Prod.mk.injEq] at h
      refine ⟨?_, ?_, ?_⟩
      · simp only [List.take_succ_cons, List.take_zero, ← h.1, hcond, magicBytes]
      · simp [← h.2]
      · simp only [List.length_cons]; omega
    · split at h
      · rename_i hcond
        simp only [Except.ok.injEq, Prod.mk.injEq] at h
        refine ⟨?_, ?_, ?_⟩
        · simp only [List.take_succ_cons, List.take_zero, ← h.1, hcond, magicBytes]
        · simp [← h.2]
        · simp only [List.length_cons]; omega
      · simp at h

theorem parse_message_header_ok {l r : List Nat} {h : MessageHeader}
    (hp : parse_message_header l = .ok (h, r)) :
    l.take 4 = magicBytes h.source ∧ r = l.drop 16 ∧ 16 ≤ l.length := by
  unfold parse_message_header at hp
  simp only [P.bind_eq, P.pure_eq, P.bind] at hp
  cases hm : readMagic l with
  | error err => rw [hm] at hp; simp at hp
  | ok sr =>
    obtain ⟨s, r1⟩ := sr
    rw [hm] at hp
    dsimp only at hp
    obtain ⟨hm1, hm2, hm3⟩ := readMagic_ok hm
    cases h1 : readLE 2 r1 with
    | error err => rw [h1] at hp; simp at hp
    | ok vr =>
      obtain ⟨v1, r2⟩ := vr
      rw [h1] at hp
      dsimp only at hp
      obtain ⟨hr2, hl2⟩ := readLE_consumes 2 h1
      cases h2 : readLE 2 r2 with
      | error err => rw [h2] at hp; simp at hp
      | ok vr =>
        obtain ⟨v2, r3⟩ := vr
        rw [h2] at hp
        dsimp only at hp
        obtain ⟨hr3, hl3⟩ := readLE_consumes 2 h2
        cases h3 : readLE 4 r3 with
        | error err => rw [h3] at hp; simp at hp
        | ok vr =>
          obtain ⟨v3, r4⟩ := vr
          rw [h3] at hp
          dsimp only at hp
          obtain ⟨hr4, hl4⟩ := readLE_consumes 4 h3
          cases h4 : readLE 4 r4 with
          | error err => rw [h4] at hp; simp at hp
          | ok vr =>
            obtain ⟨v4, r5⟩ := vr
            rw [h4] at hp
            dsimp only at hp
            obtain ⟨hr5, hl5⟩ := readLE_consumes 4 h4
            simp only [P.pure, Except.ok.injEq, Prod.mk.injEq] at hp
            obtain ⟨hh, hr⟩ := hp
            subst hr2 hr3 hr4 hr5 hm2
            simp only [List.drop_drop, List.length_drop] at hl3 hl4 hl5 hr
            refine ⟨?_, ?_, ?_⟩
            · rw [← hh]; exact hm1
            · rw [← hr]
            · omega

theorem parse_message_header_eval (s : MessageSource)
    (b0 b1 b2 b3 b4 b5 b6 b7 b8 b9 b10 b11 b12 b13 b14 b15 : Nat)
    (t : List Nat) (hm : [b0, b1, b2, b3] = magicBytes s) :
    parse_message_header (b0 :: b1 :: b2 :: b3 :: b4 :: b5 :: b6 :: b7 ::
        b8 :: b9 :: b10 :: b11 :: b12 :: b13 :: b14 :: b15 :: t) =
      .ok ({ source := s,
             protocol_version := b4 + 256 * (b5 + 256 * 0),
             message_length := b6 + 256 * (b7 + 256 * 0),
             checksum := b8 + 256 * (b9 + 256 * (b10 + 256 * (b11 + 256 * 0))),
             source_id :=
               b12 + 256 * (b13 + 256 * (b14 + 256 * (b15 + 256 * 0))) }, t) := by
  have hmagic : readMagic (b0 :: b1 :: b2 :: b3 :: b4 :: b5 :: b6 :: b7 ::
      b8 :: b9 :: b10 :: b11 :: b12 :: b13 :: b14 :: b15 :: t) =
      .ok (s, b4 :: b5 :: b6 :: b7 ::
        b8 :: b9 :: b10 :: b11 :: b12 :: b13 :: b14 :: b15 :: t) := by
    cases s <;>
      simp only [magicBytes, List.cons.injEq, and_true] at hm <;>
      obtain ⟨h0, h1, h2, h3⟩ := hm <;>
      subst h0 h1 h2 h3 <;>
      simp [readMagic]
  unfold parse_message_header
  simp only [P.bind_eq, P.pure_eq, P.bind, hmagic]
  simp [readLE, readU8, P.bind, P.pure]

theorem exists_four_cons (l : List Nat) (h : 4 ≤ l.length) :
    ∃ a0 a1 a2 a3 t, l = a0 :: a1 :: a2 :: a3 :: t := by
  rcases l with _ | ⟨a0, _ | ⟨a1, _ | ⟨a2, _ | ⟨a3, t⟩⟩⟩⟩
  · simp at h
  · simp only [List.length_cons, List.length_nil] at h; omega
  · simp only [List.length_cons, List.length_nil] at h; omega
  · simp only [List.length_cons, List.length_nil] at h; omega
  · exact ⟨a0, a1, a2, a3, t, rfl⟩

theorem exists_twelve_cons (l : List Nat) (h : 12 ≤ l.length) :
    ∃ c0 c1 c2 c3 c4 c5 c6 c7 c8 c9 c10 c11 t,
      l = c0 :: c1 :: c2 :: c3 :: c4 :: c5 :: c6 :: c7 ::
        c8 :: c9 :: c10 :: c11 :: t := by
  obtain ⟨c0, c1, c2, c3, l1, rfl⟩ := exists_four_cons l (by omega)
  have h1 : 4 ≤ l1.length := by
    simp only [List.length_cons] at h; omega
  obtain ⟨c4, c5, c6, c7, l2, rfl⟩ := exists_four_cons l1 h1
  have h2 : 4 ≤ l2.length := by
    simp only [List.length_cons] at h; omega
  obtain ⟨c8, c9, c10, c11, l3, rfl⟩ := exists_four_cons l2 h2
  exact ⟨c0, c1, c2, c3, c4, c5, c6, c7, c8, c9, c10, c11, l3, rfl⟩

theorem parse_message_flip_bad_checksum {src : MessageSource}
    {pre suf : List Nat} {b b' : Nat} {m : Message}
    (h : parse_message src (pre ++ b :: suf) true = .ok m)
    (hbytes : ∀ x ∈ pre ++ b :: suf, x < 256)
    (h12 : 12 ≤ pre.length) (hb' : b' < 256) (hne : b' ≠ b) :
    parse_message src (pre ++ b' :: suf) true = .error .badChecksum := by
  unfold parse_message at h
  cases hh : parse_message_header (pre ++ b :: suf) with
  | error err => rw [hh] at h; exact absurd h (by simp)
  | ok hr =>
    obtain ⟨header, rest⟩ := hr
    rw [hh] at h
    dsimp only at h
    by_cases hv : header.protocol_version ≠ PROTOCOL_VERSION
    · rw [if_pos hv] at h; exact absurd h (by simp)
    rw [if_neg hv] at h
    by_cases hl : (pre ++ b :: suf).length - 16 < header.message_length
    · rw [if_pos hl] at h; exact absurd h (by simp)
    rw [if_neg hl] at h
    by_cases hcs : compute_checksum (pre ++ b :: suf) ≠ header.checksum
    · rw [if_pos ⟨rfl, hcs⟩] at h; exact absurd h (by simp)
    have hc : compute_checksum (pre ++ b :: suf) = header.checksum :=
      not_ne_iff.mp hcs
    obtain ⟨hm1, hm2, hm3⟩ := parse_message_header_ok hh
    have hblt : b < 256 := hbytes b (by simp)
    obtain ⟨c0, c1, c2, c3, c4, c5, c6, c7, c8, c9, c10, c11, pre', rfl⟩ :=
      exists_twelve_cons pre h12
    have h4 : 4 ≤ (pre' ++ b :: suf).length := by
      simp only [List.cons_append, List.length_cons, List.length_append] at hm3 ⊢
      omega
    obtain ⟨u0, u1, u2, u3, t, hu⟩ := exists_four_cons _ h4
    have h4' : 4 ≤ (pre' ++ b' :: suf).length := by
      simp only [List.length_cons, List.length_append] at h4 ⊢
      omega
    obtain ⟨w0, w1, w2, w3, t', hw⟩ := exists_four_cons _ h4'
    have hmagic : [c0, c1, c2, c3] = magicBytes header.source := by
      simpa using hm1
    have heval := parse_message_header_eval header.source
      c0 c1 c2 c3 c4 c5 c6 c7 c8 c9 c10 c11 u0 u1 u2 u3 t hmagic
    have hp16 : (c0 :: c1 :: c2 :: c3 :: c4 :: c5 :: c6 :: c7 ::
        c8 :: c9 :: c10 :: c11 :: pre') ++ b :: suf =
        c0 :: c1 :: c2 :: c3 :: c4 :: c5 :: c6 :: c7 ::
        c8 :: c9 :: c10 :: c11 :: u0 :: u1 :: u2 :: u3 :: t := by
      simp only [List.cons_append, hu]
    rw [hp16] at hh
    rw [heval] at hh
    simp only [Except.ok.injEq, Prod.mk.injEq] at hh
    obtain ⟨hhh, hhr⟩ := hh
    have heval' := parse_message_header_eval header.source
      c0 c1 c2 c3 c4 c5 c6 c7 c8 c9 c10 c11 w0 w1 w2 w3 t' hmagic
    have hp16' : (c0 :: c1 :: c2 :: c3 :: c4 :: c5 :: c6 :: c7 ::
        c8 :: c9 :: c10 :: c11 :: pre') ++ b' :: suf =
        c0 :: c1 :: c2 :: c3 :: c4 :: c5 :: c6 :: c7 ::
        c8 :: c9 :: c10 :: c11 :: w0 :: w1 :: w2 :: w3 :: t' := by
      simp only [List.cons_append, hw]
    have heval2 : parse_message_header ((c0 :: c1 :: c2 :: c3 :: c4 :: c5 ::
        c6 :: c7 :: c8 :: c9 :: c10 :: c11 :: pre') ++ b' :: suf) =
        .ok ({ source := header.source,
               protocol_version := c4 + 256 * (c5 + 256 * 0),
               message_length := c6 + 256 * (c7 + 256 * 0),
               checksum := c8 + 256 * (c9 + 256 * (c10 + 256 * (c11 + 256 * 0))),
               source_id := w0 + 256 * (w1 + 256 * (w2 + 256 * (w3 + 256 * 0))) },
          t') := by
      rw [hp16']
      exact heval'
    rw [← hhh] at hv hl hc
    dsimp only at hv hl hc
    unfold parse_message
    rw [heval2]
    dsimp only
    rw [if_neg hv]
    have hlen : (( c0 :: c1 :: c2 :: c3 :: c4 :: c5 :: c6 :: c7 ::
        c8 :: c9 :: c10 :: c11 :: pre') ++ b' :: suf).length =
        ((c0 :: c1 :: c2 :: c3 :: c4 :: c5 :: c6 :: c7 ::
        c8 :: c9 :: c10 :: c11 :: pre') ++ b :: suf).length := by
      simp only [List.length_append, List.length_cons]
    rw [if_neg (by rw [hlen]; exact hl)]
    have hfne : compute_checksum ((c0 :: c1 :: c2 :: c3 :: c4 :: c5 :: c6 ::
        c7 :: c8 :: c9 :: c10 :: c11 :: pre') ++ b' :: suf) ≠
        c8 + 256 * (c9 + 256 * (c10 + 256 * (c11 + 256 * 0))) := by
      rw [← hc]
      exact compute_checksum_flip_ne _ suf
        (by simp only [List.length_cons]; omega) hne
        (by omega) (by omega)
    rw [if_pos ⟨rfl, hfne⟩]

theorem leBytes_lt (n x : Nat) : ∀ b ∈ leBytes n x, b < 256 := by
  induction n generalizing x with
  | zero => simp [leBytes]
  | succ n ih =>
    intro b hb
    simp only [leBytes, List.mem_cons] at hb
    rcases hb with h | h
    · omega
    · exact ih (x / 256) b h

theorem magicBytes_length (s : MessageSource) : (magicBytes s).length = 4 := by
  cases s <;> rfl

theorem parse_slot_state_produces (st : SlotState) :
    parse_slot_state.Produces (leBytes 1 (slotStateCode st)) st := by
  intro r
  cases st <;> rfl

theorem parse_device_type_produces (dt : DeviceType) :
    parse_device_type.Produces (leBytes 1 (deviceTypeCode dt)) dt := by
  intro r
  cases dt <;> rfl

theorem parse_connection_type_produces (ct : ConnectionType) :
    parse_connection_type.Produces (leBytes 1 (connectionTypeCode ct)) ct := by
  intro r
  cases ct <;> rfl

theorem parse_battery_status_produces (bs : BatteryStatus) :
    parse_battery_status.Produces (leBytes 1 (batteryStatusCode bs)) bs := by
  intro r
  cases bs <;> rfl

theorem parse_touch_active_produces (a : Bool) :
    parse_touch_active.Produces (leBytes 1 (cond a 1 0)) a := by
  intro r
  cases a <;> rfl

theorem parse_connected_produces (a : Bool) :
    parse_connected.Produces (leBytes 1 (cond a 1 0)) a := by
  intro r
  cases a <;> rfl

/-- Well-formedness of `ControllerInfo` as the Rust types bound it
(`slot ≤ 4` is what the parser accepts; see `parse_controller_info`). -/
def wf_controller_info (ci : ControllerInfo) : Prop :=
  ci.slot ≤ 4 ∧ ci.mac_address < 2 ^ 48

instance (ci : ControllerInfo) : Decidable (wf_controller_info ci) := by
  unfold wf_controller_info; infer_instance

theorem P.Produces.bind_last {α β : Type} {p : P α} {f : α → P β}
    {i : List Nat} {a : α} {b : β}
    (hp : p.Produces i a) (hf : (f a).Produces [] b) :
    (P.bind p f).Produces i b := by
  have := hp.bind hf
  simpa using this

theorem parse_controller_info_produces (ci : ControllerInfo)
    (h : wf_controller_info ci) :
    parse_controller_info.Produces (encode_controller_info ci) ci := by
  obtain ⟨hslot, hmac⟩ := h
  unfold parse_controller_info encode_controller_info
  simp only [P.bind_eq, P.pure_eq]
  have h1 : leBytes 1 ci.slot = [ci.slot] := by
    simp [leBytes, Nat.mod_eq_of_lt (by omega : ci.slot < 256)]
  rw [h1]
  apply P.Produces.bind (readU8_produces ci.slot)
  dsimp only
  rw [if_neg (by omega : ¬ ci.slot > 4)]
  apply P.Produces.bind (parse_slot_state_produces ci.slot_state)
  apply P.Produces.bind (parse_device_type_produces ci.device_type)
  apply P.Produces.bind (parse_connection_type_produces ci.connection_type)
  apply P.Produces.bind (readLE_produces 6 ci.mac_address (by simpa using hmac))
  apply P.Produces.bind_last (parse_battery_status_produces ci.battery_status)
  exact P.Produces.pure _

def wf_touch_data (td : TouchData) : Prop :=
  td.id < 256 ∧ td.position_x < 2 ^ 16 ∧ td.position_y < 2 ^ 16

instance (td : TouchData) : Decidable (wf_touch_data td) := by
  unfold wf_touch_data; infer_instance

theorem le1_eq {x : Nat} (h : x < 256) : leBytes 1 x = [x] := by
  simp [leBytes, Nat.mod_eq_of_lt h]

theorem parse_touch_data_produces (td : TouchData) (h : wf_touch_data td) :
    parse_touch_data.Produces (encode_touch_data td) td := by
  obtain ⟨hid, hx, hy⟩ := h
  unfold parse_touch_data encode_touch_data
  simp only [P.bind_eq, P.pure_eq]
  rw [le1_eq hid]
  apply P.Produces.bind (parse_touch_active_produces td.active)
  apply P.Produces.bind (readU8_produces td.id)
  apply P.Produces.bind (readLE_produces 2 td.position_x (by simpa using hx))
  apply P.Produces.bind_last (readLE_produces 2 td.position_y (by simpa using hy))
  exact P.Produces.pure _

/-- MSB-first packing: each mask reads back the corresponding flag, and the
packed byte is below 256. -/
theorem bit_array_spec (b0 b1 b2 b3 b4 b5 b6 b7 : Bool) :
    ((bit_array_to_u8 [b0, b1, b2, b3, b4, b5, b6, b7] &&& 128) != 0) = b0 ∧
    ((bit_array_to_u8 [b0, b1, b2, b3, b4, b5, b6, b7] &&& 64) != 0) = b1 ∧
    ((bit_array_to_u8 [b0, b1, b2, b3, b4, b5, b6, b7] &&& 32) != 0) = b2 ∧
    ((bit_array_to_u8 [b0, b1, b2, b3, b4, b5, b6, b7] &&& 16) != 0) = b3 ∧
    ((bit_array_to_u8 [b0, b1, b2, b3, b4, b5, b6, b7] &&& 8) != 0) = b4 ∧
    ((bit_array_to_u8 [b0, b1, b2, b3, b4, b5, b6, b7] &&& 4) != 0) = b5 ∧
    ((bit_array_to_u8 [b0, b1, b2, b3, b4, b5, b6, b7] &&& 2) != 0) = b6 ∧
    ((bit_array_to_u8 [b0, b1, b2, b3, b4, b5, b6, b7] &&& 1) != 0) = b7 ∧
    bit_array_to_u8 [b0, b1, b2, b3, b4, b5, b6, b7] < 256 := by
  cases b0 <;> cases b1 <;> cases b2 <;> cases b3 <;>
    cases b4 <;> cases b5 <;> cases b6 <;> cases b7 <;> decide

def wf_controller_data (cd : ControllerData) : Prop :=
  cd.ps < 256 ∧ cd.touch < 256 ∧
  cd.left_stick_x < 256 ∧ cd.left_stick_y < 256 ∧
  cd.right_stick_x < 256 ∧ cd.right_stick_y < 256 ∧
  cd.analog_d_pad_left < 256 ∧ cd.analog_d_pad_down < 256 ∧
  cd.analog_d_pad_right < 256 ∧ cd.analog_d_pad_up < 256 ∧
  cd.analog_square < 256 ∧ cd.analog_triangle < 256 ∧
  cd.analog_cross < 256 ∧ cd.analog_circle < 256 ∧
  cd.analog_r1 < 256 ∧ cd.analog_l1 < 256 ∧
  cd.analog_r2 < 256 ∧ cd.analog_l2 < 256 ∧
  wf_touch_data cd.first_touch ∧ wf_touch_data cd.second_touch ∧
  cd.motion_data_timestamp < 2 ^ 64 ∧
  cd.accelerometer_x < 2 ^ 32 ∧ cd.accelerometer_y < 2 ^ 32 ∧
  cd.accelerometer_z < 2 ^ 32 ∧ cd.gyroscope_pitch < 2 ^ 32 ∧
  cd.gyroscope_yaw < 2 ^ 32 ∧ cd.gyroscope_roll < 2 ^ 32

instance (cd : ControllerData) : Decidable (wf_controller_data cd) := by
  unfold wf_controller_data; infer_instance

theorem readU8_le1 {x : Nat} (h : x < 256) (r : List Nat) :
    readU8 (leBytes 1 x ++ r) = .ok (x, r) := by
  rw [le1_eq h]
  rfl

theorem readLE_eval {n x : Nat} (h : x < 256 ^ n) (r : List Nat) :
    readLE n (leBytes n x ++ r) = .ok (x, r) := readLE_produces n x h r

theorem parse_connected_eval (c : Bool) (r : List Nat) :
    parse_connected (leBytes 1 (cond c 1 0) ++ r) = .ok (c, r) :=
  parse_connected_produces c r

theorem parse_touch_data_eval {td : TouchData} (h : wf_touch_data td)
    (r : List Nat) :
    parse_touch_data (encode_touch_data td ++ r) = .ok (td, r) :=
  parse_touch_data_produces td h r

set_option maxHeartbeats 2000000 in
theorem parse_controller_data_produces (pn : Nat) (cd : ControllerData)
    (hpn : pn < 2 ^ 32) (h : wf_controller_data cd) :
    parse_controller_data.Produces (encode_controller_data pn cd) (pn, cd) := by
  obtain ⟨hps, htc, hx1, hy1, hx2, hy2, ha1, ha2, ha3, ha4, ha5, ha6, ha7,
    ha8, ha9, ha10, ha11, ha12, ht1, ht2, hts, hax, hay, haz, hgp, hgy,
    hgr⟩ := h
  have hb1 := bit_array_spec cd.d_pad_left cd.d_pad_down cd.d_pad_right
    cd.d_pad_up cd.start cd.right_stick_button cd.left_stick_button cd.select
  have hb2 := bit_array_spec cd.square cd.cross cd.circle cd.triangle
    cd.r1 cd.l1 cd.r2 cd.l2
  have hpn' : pn < 256 ^ 4 := by simpa using hpn
  have hts' : cd.motion_data_timestamp < 256 ^ 8 := by simpa using hts
  have hax' : cd.accelerometer_x < 256 ^ 4 := by simpa using hax
  have hay' : cd.accelerometer_y < 256 ^ 4 := by simpa using hay
  have haz' : cd.accelerometer_z < 256 ^ 4 := by simpa using haz
  have hgp' : cd.gyroscope_pitch < 256 ^ 4 := by simpa using hgp
  have hgy' : cd.gyroscope_yaw < 256 ^ 4 := by simpa using hgy
  have hgr' : cd.gyroscope_roll < 256 ^ 4 := by simpa using hgr
  intro r
  unfold encode_controller_data parse_controller_data
  simp only [List.append_assoc, P.bind_eq, P.pure_eq]
  simp only [P.bind, P.pure, parse_connected_eval,
    readLE_eval hpn', readLE_eval hts', readLE_eval hax', readLE_eval hay',
    readLE_eval haz', readLE_eval hgp', readLE_eval hgy', readLE_eval hgr',
    readU8_le1 hb1.2.2.2.2.2.2.2.2, readU8_le1 hb2.2.2.2.2.2.2.2.2,
    readU8_le1 hps, readU8_le1 htc, readU8_le1 hx1, readU8_le1 hy1,
    readU8_le1 hx2, readU8_le1 hy2, readU8_le1 ha1, readU8_le1 ha2,
    readU8_le1 ha3, readU8_le1 ha4, readU8_le1 ha5, readU8_le1 ha6,
    readU8_le1 ha7, readU8_le1 ha8, readU8_le1 ha9, readU8_le1 ha10,
    readU8_le1 ha11, readU8_le1 ha12,
    parse_touch_data_eval ⟨ht1.1, ht1.2.1, ht1.2.2⟩,
    parse_touch_data_eval ⟨ht2.1, ht2.2.1, ht2.2.2⟩,
    hb1.1, hb1.2.1, hb1.2.2.1, hb1.2.2.2.1, hb1.2.2.2.2.1,
    hb1.2.2.2.2.2.1, hb1.2.2.2.2.2.2.1, hb1.2.2.2.2.2.2.2.1,
    hb2.1, hb2.2.1, hb2.2.2.1, hb2.2.2.2.1, hb2.2.2.2.2.1,
    hb2.2.2.2.2.2.1, hb2.2.2.2.2.2.2.1, hb2.2.2.2.2.2.2.2.1]

theorem parse_payload_server_version (v : Nat) (h : v < 2 ^ 16) :
    (parse_message_payload .Server .ProtocolVersion).Produces
      (leBytes 2 v) (.ProtocolVersion v) := by
  unfold parse_message_payload
  simp only [P.bind_eq, P.pure_eq]
  apply P.Produces.bind_last (readLE_produces 2 v (by simpa using h))
  exact P.Produces.pure _

theorem parse_payload_server_controllers (ci : ControllerInfo)
    (h : wf_controller_info ci) :
    (parse_message_payload .Server .ConnectedControllers).Produces
      (encode_controller_info ci ++ leBytes 1 0)
      (.ConnectedControllerResponse ci) := by
  unfold parse_message_payload
  simp only [P.bind_eq, P.pure_eq]
  apply P.Produces.bind (parse_controller_info_produces ci h)
  rw [show leBytes 1 0 = [0] from rfl]
  apply P.Produces.bind_last (readU8_produces 0)
  rw [if_neg (by simp)]
  exact P.Produces.pure _

theorem parse_payload_server_data (pn : Nat) (ci : ControllerInfo)
    (cd : ControllerData) (hpn : pn < 2 ^ 32) (hci : wf_controller_info ci)
    (hcd : wf_controller_data cd) :
    (parse_message_payload .Server .ControllerData).Produces
      (encode_controller_info ci ++ encode_controller_data pn cd)
      (.ControllerData pn ci cd) := by
  unfold parse_message_payload
  simp only [P.bind_eq, P.pure_eq]
  apply P.Produces.bind (parse_controller_info_produces ci hci)
  apply P.Produces.bind_last (parse_controller_data_produces pn cd hpn hcd)
  exact P.Produces.pure _

/-- The quirk datagram: a `ProtocolVersion(1001)` body (bytes `[233, 3]`)
parsed under `(Server, ConnectedControllers)` fails at the slot bound. -/
theorem parse_payload_server_quirk (r : List Nat) :
    parse_message_payload .Server .ConnectedControllers
      (leBytes 2 PROTOCOL_VERSION ++ r) = .error .invalidSlotNumber := rfl

theorem parse_message_type_produces (t : MessageType) :
    parse_message_type.Produces (encode_message_type t) t := by
  intro r
  cases t <;> rfl

theorem set_append_plus (l1 l2 : List Nat) (j v : Nat) :
    (l1 ++ l2).set (l1.length + j) v = l1 ++ l2.set j v := by
  induction l1 with
  | nil => simp
  | cons x t ih =>
    simp only [List.cons_append, List.length_cons]
    rw [show t.length + 1 + j = (t.length + j) + 1 by omega,
      List.set_cons_succ, ih]

theorem zcf_eight (pre : List Nat) (h8 : pre.length = 8)
    (x0 x1 x2 x3 : Nat) (r : List Nat) :
    zero_checksum_field (pre ++ x0 :: x1 :: x2 :: x3 :: r) =
      pre ++ 0 :: 0 :: 0 :: 0 :: r := by
  unfold zero_checksum_field
  rw [show (8 : Nat) = pre.length + 0 by omega, set_append_plus]
  rw [show (9 : Nat) = pre.length + 1 by omega, set_append_plus]
  rw [show (10 : Nat) = pre.length + 2 by omega, set_append_plus]
  rw [show (11 : Nat) = pre.length + 3 by omega, set_append_plus]
  rfl

theorem compute_checksum_indep (pre : List Nat) (h8 : pre.length = 8)
    (x0 x1 x2 x3 y0 y1 y2 y3 : Nat) (r : List Nat) :
    compute_checksum (pre ++ x0 :: x1 :: x2 :: x3 :: r) =
      compute_checksum (pre ++ y0 :: y1 :: y2 :: y3 :: r) := by
  unfold compute_checksum
  rw [zcf_eight pre h8, zcf_eight pre h8]

set_option maxHeartbeats 2000000 in
theorem encode_message_eq {m : Message} {pb : List Nat}
    (hp : encode_message_payload m.payload = .ok pb) :
    encode_message m = .ok (magicBytes m.header.source ++
      leBytes 2 m.header.protocol_version ++
      leBytes 2 ((pb.length + 4) % 2 ^ 16) ++
      leBytes 4 (compute_checksum (magicBytes m.header.source ++
        leBytes 2 m.header.protocol_version ++
        leBytes 2 ((pb.length + 4) % 2 ^ 16) ++
        leBytes 4 m.header.checksum ++ leBytes 4 m.header.source_id ++
        encode_message_type m.message_type ++ pb)) ++
      leBytes 4 m.header.source_id ++ encode_message_type m.message_type ++
      pb) := by
  unfold encode_message
  rw [hp]
  cases hs : m.header.source <;> simp only [encode_message_header, hs] <;> rfl

theorem crcBitStep_iterate_lt {c : Nat} (n : Nat) (h : c < 2 ^ 32) :
    crcBitStep^[n] c < 2 ^ 32 := by
  induction n generalizing c with
  | zero => exact h
  | succ n ih =>
    rw [Function.iterate_succ_apply]
    exact ih (crcBitStep_lt h)

theorem crc32_update_lt {c : Nat} (l : List Nat) (hc : c < 2 ^ 32)
    (hl : ∀ b ∈ l, b < 256) : crc32_update c l < 2 ^ 32 := by
  induction l generalizing c with
  | nil => exact hc
  | cons x t ih =>
    simp only [crc32_update, List.foldl_cons]
    refine ih ?_ (fun b hb => hl b (by simp [hb]))
    unfold crcByteStep
    exact crcBitStep_iterate_lt 8
      (xor_lt_32 hc (by have := hl x (by simp); omega))

theorem compute_checksum_lt (l : List Nat) (hl : ∀ b ∈ l, b < 256) :
    compute_checksum l < 2 ^ 32 := by
  unfold compute_checksum checksum_ieee
  refine xor_lt_32 (crc32_update_lt _ (by norm_num) ?_) (by norm_num)
  intro b hb
  unfold zero_checksum_field at hb
  have step : ∀ (ll : List Nat) (i : Nat) (bb : Nat), bb ∈ ll.set i 0 →
      bb ∈ ll ∨ bb = 0 := by
    intro ll i bb hbb
    exact List.mem_or_eq_of_mem_set hbb
  rcases step _ _ _ hb with h1 | h1
  · rcases step _ _ _ h1 with h2 | h2
    · rcases step _ _ _ h2 with h3 | h3
      · rcases step _ _ _ h3 with h4 | h4
        · exact hl b h4
        · omega
      · omega
    · omega
  · omega

theorem encode_controller_info_lt (ci : ControllerInfo) :
    ∀ b ∈ encode_controller_info ci, b < 256 := by
  intro b hb
  unfold encode_controller_info at hb
  simp only [List.mem_append] at hb
  rcases hb with ((((h | h) | h) | h) | h) | h <;>
    exact leBytes_lt _ _ b h

theorem encode_touch_data_lt (td : TouchData) :
    ∀ b ∈ encode_touch_data td, b < 256 := by
  intro b hb
  unfold encode_touch_data at hb
  simp only [List.mem_append] at hb
  rcases hb with ((h | h) | h) | h <;> exact leBytes_lt _ _ b h

theorem encode_controller_data_lt (pn : Nat) (cd : ControllerData) :
    ∀ b ∈ encode_controller_data pn cd, b < 256 := by
  intro b hb
  unfold encode_controller_data at hb
  simp only [List.mem_append] at hb
  repeat' first
    | exact leBytes_lt _ _ b hb
    | exact encode_touch_data_lt _ b hb
    | rcases hb with hb | hb

theorem encode_message_payload_lt {p : MessagePayload} {pb : List Nat}
    (h : encode_message_payload p = .ok pb) : ∀ b ∈ pb, b < 256 := by
  intro b hb
  cases p with
  | None =>
    simp only [encode_message_payload, Except.ok.injEq] at h
    rw [← h] at hb
    simp at hb
  | ProtocolVersion v =>
    simp only [encode_message_payload, Except.ok.injEq] at h
    rw [← h] at hb
    exact leBytes_lt _ _ b hb
  | ConnectedControllersRequest amount slot_numbers =>
    simp only [encode_message_payload] at h
    split at h
    · simp at h
    · simp only [Except.ok.injEq] at h
      rw [← h] at hb
      simp only [List.mem_append] at hb
      rcases hb with hb | hb
      · exact leBytes_lt _ _ b hb
      · simp only [List.mem_map] at hb
        obtain ⟨x, _, hx⟩ := hb
        omega
  | ConnectedControllerResponse ci =>
    simp only [encode_message_payload, Except.ok.injEq] at h
    rw [← h] at hb
    simp only [List.mem_append] at hb
    rcases hb with hb | hb
    · exact encode_controller_info_lt _ b hb
    · exact leBytes_lt _ _ b hb
  | ControllerDataRequest req =>
    simp only [encode_message_payload, Except.ok.injEq] at h
    rw [← h] at hb
    cases req <;>
      simp only [encode_controller_data_request, List.mem_append] at hb <;>
      rcases hb with (hb | hb) | hb <;>
      exact leBytes_lt _ _ b hb
  | ControllerData pn ci cd =>
    simp only [encode_message_payload, Except.ok.injEq] at h
    rw [← h] at hb
    simp only [List.mem_append] at hb
    rcases hb with hb | hb
    · exact encode_controller_info_lt _ b hb
    · exact encode_controller_data_lt _ _ b hb

theorem encode_message_type_lt (t : MessageType) :
    ∀ b ∈ encode_message_type t, b < 256 := by
  intro b hb
  exact leBytes_lt _ _ b hb

theorem encode_message_lt {m : Message} {l : List Nat}
    (h : encode_message m = .ok l) : ∀ b ∈ l, b < 256 := by
  cases hp : encode_message_payload m.payload with
  | error err => unfold encode_message at h; rw [hp] at h; simp at h
  | ok pb =>
    rw [encode_message_eq hp] at h
    intro b hb
    simp only [Except.ok.injEq] at h
    rw [← h] at hb
    simp only [List.mem_append] at hb
    have hmagic : ∀ x ∈ magicBytes m.header.source, x < 256 := by
      cases m.header.source <;> simp [magicBytes] <;> omega
    repeat' first
      | exact leBytes_lt _ _ b hb
      | exact hmagic b hb
      | exact encode_message_payload_lt hp b hb
      | exact encode_message_type_lt _ b hb
      | rcases hb with hb | hb

theorem readMagic_produces (s : MessageSource) :
    readMagic.Produces (magicBytes s) s := by
  intro r
  cases s <;>
  · simp only [readMagic, magicBytes, List.cons_append, List.nil_append,
      List.length_cons]
    have hz : 4 - (r.length + 1 + 1 + 1 + 1) = 0 := by omega
    simp [hz, List.replicate]

theorem parse_message_header_produces (s : MessageSource)
    (ver L cs sid : Nat) (hv : ver < 2 ^ 16) (hL : L < 2 ^ 16)
    (hcs : cs < 2 ^ 32) (hsid : sid < 2 ^ 32) :
    parse_message_header.Produces
      (magicBytes s ++ leBytes 2 ver ++ leBytes 2 L ++ leBytes 4 cs ++
        leBytes 4 sid)
      { source := s, protocol_version := ver, message_length := L,
        checksum := cs, source_id := sid } := by
  unfold parse_message_header
  simp only [P.bind_eq, P.pure_eq, List.append_assoc]
  apply P.Produces.bind (readMagic_produces s)
  apply P.Produces.bind (readLE_produces 2 ver (by simpa using hv))
  apply P.Produces.bind (readLE_produces 2 L (by simpa using hL))
  apply P.Produces.bind (readLE_produces 4 cs (by simpa using hcs))
  apply P.Produces.bind_last (readLE_produces 4 sid (by simpa using hsid))
  exact P.Produces.pure _

theorem packet_bytes_lt (s : MessageSource) (v L c sid : Nat)
    (tb pb : List Nat) (htb : ∀ x ∈ tb, x < 256) (hpb : ∀ x ∈ pb, x < 256) :
    ∀ x ∈ magicBytes s ++ leBytes 2 v ++ leBytes 2 L ++ leBytes 4 c ++
      leBytes 4 sid ++ tb ++ pb, x < 256 := by
  intro x hx
  simp only [List.mem_append] at hx
  have hmagic : ∀ y ∈ magicBytes s, y < 256 := by
    cases s <;> simp [magicBytes] <;> omega
  repeat' first
    | exact leBytes_lt _ _ x hx
    | exact hmagic x hx
    | exact htb x hx
    | exact hpb x hx
    | rcases hx with hx | hx

theorem compute_checksum_cs_indep (s : MessageSource)
    (v L c c' sid : Nat) (tb pb : List Nat) :
    compute_checksum (magicBytes s ++ (leBytes 2 v ++ (leBytes 2 L ++
      (leBytes 4 c ++ (leBytes 4 sid ++ (tb ++ pb)))))) =
    compute_checksum (magicBytes s ++ (leBytes 2 v ++ (leBytes 2 L ++
      (leBytes 4 c' ++ (leBytes 4 sid ++ (tb ++ pb)))))) := by
  cases s <;> rfl

set_option maxHeartbeats 2000000 in
theorem parse_encode_message {m : Message} {pb b : List Nat}
    {pay : MessagePayload}
    (hp : encode_message_payload m.payload = .ok pb)
    (hver : m.header.protocol_version = PROTOCOL_VERSION)
    (hsid : m.header.source_id < 2 ^ 32)
    (hlen : pb.length + 4 < 2 ^ 16)
    (he : encode_message m = .ok b)
    (hpay : ∀ r, ∃ r2, parse_message_payload m.header.source m.message_type
      (pb ++ r) = .ok (pay, r2)) :
    ∃ hdr, parse_message m.header.source b true =
        .ok { header := hdr, message_type := m.message_type, payload := pay } ∧
      hdr.source = m.header.source ∧
      hdr.protocol_version = PROTOCOL_VERSION ∧
      hdr.message_length = pb.length + 4 ∧
      hdr.source_id = m.header.source_id := by
  rw [encode_message_eq hp] at he
  simp only [Except.ok.injEq] at he
  subst he
  have hpblt := encode_message_payload_lt hp
  have htblt := encode_message_type_lt m.message_type
  have hbytes := packet_bytes_lt m.header.source m.header.protocol_version
    ((pb.length + 4) % 2 ^ 16)
    (compute_checksum (magicBytes m.header.source ++
      leBytes 2 m.header.protocol_version ++
      leBytes 2 ((pb.length + 4) % 2 ^ 16) ++
      leBytes 4 m.header.checksum ++ leBytes 4 m.header.source_id ++
      encode_message_type m.message_type ++ pb))
    m.header.source_id (encode_message_type m.message_type) pb htblt hpblt
  have hcslt : compute_checksum (magicBytes m.header.source ++
      leBytes 2 m.header.protocol_version ++
      leBytes 2 ((pb.length + 4) % 2 ^ 16) ++
      leBytes 4 m.header.checksum ++ leBytes 4 m.header.source_id ++
      encode_message_type m.message_type ++ pb) < 2 ^ 32 :=
    compute_checksum_lt _ (packet_bytes_lt m.header.source
      m.header.protocol_version ((pb.length + 4) % 2 ^ 16) m.header.checksum
      m.header.source_id (encode_message_type m.message_type) pb htblt hpblt)
  have hmod : (pb.length + 4) % 2 ^ 16 = pb.length + 4 :=
    Nat.mod_eq_of_lt hlen
  have hhp := parse_message_header_produces m.header.source
    m.header.protocol_version ((pb.length + 4) % 2 ^ 16)
    (compute_checksum (magicBytes m.header.source ++
      leBytes 2 m.header.protocol_version ++
      leBytes 2 ((pb.length + 4) % 2 ^ 16) ++
      leBytes 4 m.header.checksum ++ leBytes 4 m.header.source_id ++
      encode_message_type m.message_type ++ pb))
    m.header.source_id (by rw [hver]; decide)
    (Nat.mod_lt _ (by norm_num)) hcslt hsid
  have hhdr := hhp (encode_message_type m.message_type ++ pb)
  refine ⟨{ source := m.header.source,
            protocol_version := m.header.protocol_version,
            message_length := (pb.length + 4) % 2 ^ 16,
            checksum := compute_checksum (magicBytes m.header.source ++
              leBytes 2 m.header.protocol_version ++
              leBytes 2 ((pb.length + 4) % 2 ^ 16) ++
              leBytes 4 m.header.checksum ++ leBytes 4 m.header.source_id ++
              encode_message_type m.message_type ++ pb),
            source_id := m.header.source_id }, ?hmain, ?h1, ?h2, ?h3, ?h4⟩
  case hmain =>
    unfold parse_message
    simp only [List.append_assoc] at hhdr ⊢
    rw [hhdr]
    dsimp only
    rw [if_neg (by rw [hver]; simp)]
    rw [if_neg ?hlength]
    case hlength =>
      simp only [List.length_append, leBytes_length, magicBytes_length,
        encode_message_type]
      rw [hmod]
      omega
    rw [if_neg ?hchecksum]
    case hchecksum =>
      simp only [ne_eq, not_and, Decidable.not_not]
      intro _
      exact compute_checksum_cs_indep m.header.source
        m.header.protocol_version ((pb.length + 4) % 2 ^ 16) _
        m.header.checksum m.header.source_id
        (encode_message_type m.message_type) pb
    rw [parse_message_type_produces m.message_type pb]
    dsimp only
    obtain ⟨r2, hr2⟩ := hpay []
    rw [List.append_nil] at hr2
    rw [hr2]
  case h1 => rfl
  case h2 => exact hver
  case h3 => exact hmod
  case h4 => rfl

/-- Client-side cached slot (`src/client.rs`, `struct Slot`). -/
structure ClientSlot where
  controller_info : ControllerInfo
  controller_data : ControllerData
  latest_packet_number : Nat
deriving DecidableEq, Repr

/-- `#[derive(Default)]` for the client `Slot`. -/
def ClientSlot.default : ClientSlot :=
  { controller_info := ControllerInfo.default,
    controller_data := ControllerData.default,
    latest_packet_number := 0 }

inductive ClientEvent where
  | ControllerInfoChanged (controller_info : ControllerInfo)
  | ControllerDataChanged (controller_info : ControllerInfo)
      (controller_data : ControllerData)
deriving DecidableEq, Repr

/-- The client slot array built by `Client::new`: defaults with
`slot.controller_info.slot = i`. -/
def client_initial_slots : List ClientSlot :=
  [{ ClientSlot.default with
      controller_info := { ControllerInfo.default with slot := 0 } },
   { ClientSlot.default with
      controller_info := { ControllerInfo.default with slot := 1 } },
   { ClientSlot.default with
      controller_info := { ControllerInfo.default with slot := 2 } },
   { ClientSlot.default with
      controller_info := { ControllerInfo.default with slot := 3 } }]

/-- `Client::handle_response`.  The result is `none` exactly when the Rust
code would panic: `slots[slot_number as usize]` with `slot_number` out of
bounds for the 4-element array (reachable, since `parse_controller_info`
accepts `slot = 4`).  Otherwise `some (slots', event?)`. -/
def handle_response (slots : List ClientSlot) (response : Message) :
    Option (List ClientSlot × Option ClientEvent) :=
  match response.message_type with
  | .ProtocolVersion => some (slots, none)
  | _ =>
    match response.payload with
    | .ConnectedControllerResponse controller_info =>
      let slot_number := controller_info.slot
      if slot_number < slots.length then
        let slot := slots.getD slot_number ClientSlot.default
        if slot.controller_info ≠ controller_info then
          some (slots.set slot_number
              { slot with controller_info := controller_info },
            some (.ControllerInfoChanged controller_info))
        else some (slots, none)
      else none
    | .ControllerData packet_number controller_info controller_data =>
      let slot_number := controller_info.slot
      if slot_number < slots.length then
        let slot := slots.getD slot_number ClientSlot.default
        if packet_number > slot.latest_packet_number then
          let slots1 := slots.set slot_number
            { slot with latest_packet_number := packet_number }
          if slot.controller_info ≠ controller_info ∨
              slot.controller_data ≠ controller_data then
            some (slots1.set slot_number
                { slot with
                  latest_packet_number := packet_number
                  controller_info := controller_info
                  controller_data := controller_data },
              some (.ControllerDataChanged controller_info controller_data))
          else some (slots1, none)
        else some (slots, none)
      else none
    | _ => some (slots, none)

theorem getD_set_self (l : List ClientSlot) (i : Nat) (v : ClientSlot)
    (h : i < l.length) : (l.set i v).getD i ClientSlot.default = v := by
  simp [List.getD_eq_getElem?_getD, List.getElem?_set_self, h]

theorem getD_set_other (l : List ClientSlot) (i j : Nat) (v : ClientSlot)
    (h : i ≠ j) : (l.set i v).getD j ClientSlot.default =
      l.getD j ClientSlot.default := by
  simp [List.getD_eq_getElem?_getD, List.getElem?_set_ne h]

theorem handle_response_controller_data
    (slots : List ClientSlot) (hdr : MessageHeader) (pn : Nat)
    (ci : ControllerInfo) (cd : ControllerData)
    (hlen : slots.length = 4) (hslot : ci.slot < 4) :
    ∃ slots' ev,
      handle_response slots
          { header := hdr, message_type := .ControllerData,
            payload := .ControllerData pn ci cd } = some (slots', ev) ∧
      (∀ i, (slots.getD i ClientSlot.default).latest_packet_number ≤
        (slots'.getD i ClientSlot.default).latest_packet_number) ∧
      (pn ≤ (slots.getD ci.slot ClientSlot.default).latest_packet_number →
        slots' = slots ∧ ev = none) ∧
      (ev ≠ none ↔
        pn > (slots.getD ci.slot ClientSlot.default).latest_packet_number ∧
        ((slots.getD ci.slot ClientSlot.default).controller_info ≠ ci ∨
         (slots.getD ci.slot ClientSlot.default).controller_data ≠ cd)) := by
  unfold handle_response
  dsimp only
  rw [if_pos (by omega)]
  by_cases hfresh : pn > (slots.getD ci.slot ClientSlot.default).latest_packet_number
  · rw [if_pos hfresh]
    by_cases hdiff : (slots.getD ci.slot ClientSlot.default).controller_info ≠ ci ∨
        (slots.getD ci.slot ClientSlot.default).controller_data ≠ cd
    · rw [if_pos hdiff]
      rw [List.set_set]
      refine ⟨_, _, rfl, ?_, ?_, ?_⟩
      · intro i
        by_cases hi : ci.slot = i
        · subst hi
          rw [getD_set_self _ _ _ (by omega)]
          dsimp only
          omega
        · rw [getD_set_other _ _ _ _ hi]
      · intro hle
        omega
      · simp only [ne_eq, reduceCtorEq, not_false_eq_true, true_iff]
        exact ⟨hfresh, hdiff⟩
    · rw [if_neg hdiff]
      refine ⟨_, _, rfl, ?_, ?_, ?_⟩
      · intro i
        by_cases hi : ci.slot = i
        · subst hi
          rw [getD_set_self _ _ _ (by omega)]
          dsimp only
          omega
        · rw [getD_set_other _ _ _ _ hi]
      · intro hle
        omega
      · simp only [ne_eq, not_true_eq_false, false_iff, not_and]
        intro _
        simpa using hdiff
  · rw [if_neg hfresh]
    refine ⟨_, _, rfl, ?_, ?_, ?_⟩
    · intro i
      exact Nat.le_refl _
    · intro _
      exact ⟨rfl, rfl⟩
    · simp only [ne_eq, not_true_eq_false, false_iff, not_and]
      intro hcontra
      exact absurd hcontra hfresh

/-- Server-side cached slot (`src/server.rs`, `struct Slot`). -/
structure ServerSlot where
  controller_info : ControllerInfo
  controller_data : ControllerData
deriving DecidableEq, Repr

def ServerSlot.default : ServerSlot :=
  { controller_info := ControllerInfo.default,
    controller_data := ControllerData.default }

/-- `RequestedControllerData` — one subscription.  The two `HashSet`s are
modelled as duplicate-free lists in insertion order (`HashSet` iteration
order is unspecified; every property proved below is insensitive to it). -/
structure RequestedControllerData where
  packet_number : Nat
  slot_numbers : List Nat
  mac_addresses : List Nat
deriving DecidableEq, Repr

/-- `HashSet::insert`: no-op when present. -/
def setInsert (s : List Nat) (x : Nat) : List Nat :=
  if x ∈ s then s else s ++ [x]

/-- One attempted `send_to` of a `ControllerData` datagram during fan-out:
the target address, the slot index it reports (bookkeeping used to state
the per-slot properties), the message put on the wire, and whether the
send succeeded.  Socket outcomes are supplied by an oracle indexed by a
running send counter. -/
structure SentRecord where
  target : Nat
  slotIdx : Nat
  message : Message
  ok : Bool
deriving DecidableEq, Repr

/-- The message built by `Server::send_slot_data`. -/
def slot_data_message (hdr : MessageHeader) (slot : ServerSlot)
    (packet_number : Nat) : Message :=
  { header := hdr, message_type := .ControllerData,
    payload := .ControllerData packet_number slot.controller_info
      slot.controller_data }

/-- The message built by `Server::send_protocol_version` — note the
`ConnectedControllers` message type carrying a `ProtocolVersion` payload. -/
def protocol_version_message (hdr : MessageHeader) : Message :=
  { header := hdr, message_type := .ConnectedControllers,
    payload := .ProtocolVersion PROTOCOL_VERSION }

/-- The message built by `Server::send_connected_controller_info`. -/
def connected_controller_info_message (hdr : MessageHeader)
    (slots : List ServerSlot) (slot_number : Nat) : Message :=
  { header := hdr, message_type := .ConnectedControllers,
    payload := .ConnectedControllerResponse
      (slots.getD slot_number ServerSlot.default).controller_info }

/-- `Server::send_slot_data`: sends the current `packet_number` and
increments it only on a successful send. -/
def send_slot_data (hdr : MessageHeader) (oracle : Nat → Bool)
    (target slotIdx : Nat) (slot : ServerSlot) (packet_number k : Nat) :
    SentRecord × Nat × Nat :=
  let message := slot_data_message hdr slot packet_number
  let ok := oracle k
  ({ target, slotIdx, message, ok },
   if ok then packet_number + 1 else packet_number, k + 1)

/-- The `slot_numbers` loop of `Server::send_controller_data` for one
subscriber.  Returns the send records, the final `packet_number`, send
counter and `already_sent` set, and whether the subscriber survived
(`false` = a send failed, the `retain` closure returns `false`). -/
def send_slots_loop (hdr : MessageHeader) (oracle : Nat → Bool)
    (slots : List ServerSlot) (target : Nat) :
    List Nat → Nat → Nat → List Nat →
    List SentRecord × Nat × Nat × List Nat × Bool
  | [], pn, k, already => ([], pn, k, already, true)
  | s :: rest, pn, k, already =>
    let slot := slots.getD s ServerSlot.default
    let (record, pn', k') := send_slot_data hdr oracle target s slot pn k
    if record.ok then
      let (records, pn'', k'', already', survived) :=
        send_slots_loop hdr oracle slots target rest pn' k' (setInsert already s)
      (record :: records, pn'', k'', already', survived)
    else
      ([record], pn', k', already, false)

/-- The `mac_addresses` loop of `Server::send_controller_data` for one
subscriber: find the slot with the matching MAC, skip it if already sent
(or if no slot matches), otherwise send under the same rules. -/
def send_macs_loop (hdr : MessageHeader) (oracle : Nat → Bool)
    (slots : List ServerSlot) (target : Nat) :
    List Nat → Nat → Nat → List Nat →
    List SentRecord × Nat × Nat × List Nat × Bool
  | [], pn, k, already => ([], pn, k, already, true)
  | mac :: rest, pn, k, already =>
    match slots.findIdx? (fun slot => slot.controller_info.mac_address = mac) with
    | some slot_number =>
      if slot_number ∈ already then
        send_macs_loop hdr oracle slots target rest pn k already
      else
        let slot := slots.getD slot_number ServerSlot.default
        let (record, pn', k') :=
          send_slot_data hdr oracle target slot_number slot pn k
        if record.ok then
          let (records, pn'', k'', already', survived) :=
            send_macs_loop hdr oracle slots target rest pn' k'
              (setInsert already slot_number)
          (record :: records, pn'', k'', already', survived)
        else
          ([record], pn', k', already, false)
    | none => send_macs_loop hdr oracle slots target rest pn k already

/-- The body of the `retain` closure of `Server::send_controller_data` for
one subscriber. -/
def process_client (hdr : MessageHeader) (oracle : Nat → Bool)
    (slots : List ServerSlot) (target : Nat)
    (req : RequestedControllerData) (k : Nat) :
    List SentRecord × RequestedControllerData × Nat × Bool :=
  let (records1, pn1, k1, already1, survived1) :=
    send_slots_loop hdr oracle slots target req.slot_numbers
      req.packet_number k []
  if survived1 then
    let (records2, pn2, k2, _, survived2) :=
      send_macs_loop hdr oracle slots target req.mac_addresses pn1 k1 already1
    (records1 ++ records2, { req with packet_number := pn2 }, k2, survived2)
  else
    (records1, { req with packet_number := pn1 }, k1, false)

/-- `Server::send_controller_data`: one fan-out pass over the subscription
registry (a `retain` that keeps only subscribers whose sends all
succeeded, with their `packet_number` updated in place). -/
def send_controller_data (hdr : MessageHeader) (oracle : Nat → Bool)
    (slots : List ServerSlot) :
    List (Nat × RequestedControllerData) → Nat →
    List SentRecord × List (Nat × RequestedControllerData) × Nat
  | [], k => ([], [], k)
  | (addr, req) :: rest, k =>
    let (records, req', k', survived) := process_client hdr oracle slots addr req k
    let (records2, clients', k'') := send_controller_data hdr oracle slots rest k'
    (records ++ records2,
     (if survived then [(addr, req')] else []) ++ clients', k'')

/-- The subscription upsert of `Server::handle_request` for a
`ControllerDataRequest`: `entry(source).or_insert(packet_number: 0, ∅, ∅)`
followed by the per-variant insertions. -/
def apply_request (req : RequestedControllerData)
    (request : ControllerDataRequest) : RequestedControllerData :=
  match request with
  | .ReportAll =>
    { req with slot_numbers :=
        setInsert (setInsert (setInsert (setInsert req.slot_numbers 0) 1) 2) 3 }
  | .SlotNumber slot_number =>
    { req with slot_numbers := setInsert req.slot_numbers slot_number }
  | .MAC mac =>
    { req with mac_addresses := setInsert req.mac_addresses mac }

def subscribe (clients : List (Nat × RequestedControllerData)) (source : Nat)
    (request : ControllerDataRequest) :
    List (Nat × RequestedControllerData) :=
  match clients with
  | [] => [(source, apply_request
      { packet_number := 0, slot_numbers := [], mac_addresses := [] } request)]
  | (addr, req) :: rest =>
    if addr = source then (addr, apply_request req request) :: rest
    else (addr, req) :: subscribe rest source request

/-- The `0..amount` loop of `Server::handle_request` for a
`ConnectedControllersRequest`: one info datagram per requested slot, with
`?`-propagation stopping at the first failed send. -/
def send_infos_loop (hdr : MessageHeader) (oracle : Nat → Bool)
    (slots : List ServerSlot) (target : Nat) :
    List Nat → Nat → List SentRecord × Nat
  | [], k => ([], k)
  | s :: rest, k =>
    let record : SentRecord :=
      { target, slotIdx := s,
        message := connected_controller_info_message hdr slots s,
        ok := oracle k }
    if record.ok then
      let (records, k') := send_infos_loop hdr oracle slots target rest (k + 1)
      (record :: records, k')
    else
      ([record], k + 1)

/-- `Server::handle_request` (the slot cache is read-only here; the
subscription registry may change, and sends may occur). -/
def handle_request (hdr : MessageHeader) (oracle : Nat → Bool)
    (slots : List ServerSlot)
    (clients : List (Nat × RequestedControllerData)) (source : Nat)
    (request : Message) (k : Nat) :
    List SentRecord × List (Nat × RequestedControllerData) × Nat :=
  match request.message_type with
  | .ProtocolVersion =>
    ([{ target := source, slotIdx := 0,
        message := protocol_version_message hdr, ok := oracle k }],
     clients, k + 1)
  | _ =>
    match request.payload with
    | .ConnectedControllersRequest amount slot_numbers =>
      let (records, k') := send_infos_loop hdr oracle slots source
        (slot_numbers.take amount.toNat) k
      (records, clients, k')
    | .ControllerDataRequest request =>
      let clients1 := subscribe clients source request
      let (records, clients2, k') :=
        send_controller_data hdr oracle slots clients1 k
      (records, clients2, k')
    | _ => ([], clients, k)

/-- `Server::update_controller_data` (precondition `slot_number < 4` from
the `assert!`): store the new data, then run one fan-out. -/
def update_controller_data (hdr : MessageHeader) (oracle : Nat → Bool)
    (slots : List ServerSlot)
    (clients : List (Nat × RequestedControllerData)) (slot_number : Nat)
    (controller_data : ControllerData) (k : Nat) :
    List SentRecord × List ServerSlot ×
      List (Nat × RequestedControllerData) × Nat :=
  let slots' := slots.set slot_number
    { slots.getD slot_number ServerSlot.default with
      controller_data := controller_data }
  let (records, clients', k') := send_controller_data hdr oracle slots' clients k
  (records, slots', clients', k')

/-- The wire packet number of a fan-out record. -/
def record_pn (r : SentRecord) : Nat :=
  match r.message.payload with
  | .ControllerData pn _ _ => pn
  | _ => 0

theorem send_slots_loop_pns (hdr : MessageHeader) (oracle : Nat → Bool)
    (slots : List ServerSlot) (target : Nat) (lst : List Nat)
    (pn k : Nat) (already : List Nat) :
    (((send_slots_loop hdr oracle slots target lst pn k already).1.filter
        (·.ok)).map record_pn =
      List.range' pn ((send_slots_loop hdr oracle slots target lst pn k
        already).1.filter (·.ok)).length) ∧
    (send_slots_loop hdr oracle slots target lst pn k already).2.1 =
      pn + ((send_slots_loop hdr oracle slots target lst pn k
        already).1.filter (·.ok)).length := by
  induction lst generalizing pn k already with
  | nil => simp [send_slots_loop]
  | cons s rest ih =>
    by_cases hok : oracle k = true
    · obtain ⟨ih1, ih2⟩ := ih (pn + 1) (k + 1) (setInsert already s)
      rcases hres : send_slots_loop hdr oracle slots target rest (pn + 1)
        (k + 1) (setInsert already s) with ⟨records, pn2, k2, already2, survived⟩
      rw [hres] at ih1 ih2
      simp only [send_slots_loop, send_slot_data, hok, if_true, hres]
      simp only [List.filter_cons, decide_eq_true_eq, List.map_cons,
        List.length_cons] at ih1 ih2 ⊢
      simp only [if_true]
      simp only [List.map_cons, List.length_cons]
      constructor
      · rw [List.range'_succ pn _ 1]
        simp only [List.cons.injEq]
        refine ⟨rfl, ?_⟩
        simpa [record_pn, slot_data_message] using ih1
      · omega
    · simp only [send_slots_loop, send_slot_data, hok, Bool.false_eq_true,
        if_false]
      simp [List.filter_cons, hok, List.range']

theorem send_macs_loop_pns (hdr : MessageHeader) (oracle : Nat → Bool)
    (slots : List ServerSlot) (target : Nat) (lst : List Nat)
    (pn k : Nat) (already : List Nat) :
    (((send_macs_loop hdr oracle slots target lst pn k already).1.filter
        (·.ok)).map record_pn =
      List.range' pn ((send_macs_loop hdr oracle slots target lst pn k
        already).1.filter (·.ok)).length) ∧
    (send_macs_loop hdr oracle slots target lst pn k already).2.1 =
      pn + ((send_macs_loop hdr oracle slots target lst pn k
        already).1.filter (·.ok)).length := by
  induction lst generalizing pn k already with
  | nil => simp [send_macs_loop]
  | cons mac rest ih =>
    cases hfind : slots.findIdx?
        (fun slot => slot.controller_info.mac_address = mac) with
    | none =>
      simp only [send_macs_loop, hfind]
      exact ih pn k already
    | some idx =>
      by_cases hmem : idx ∈ already
      · simp only [send_macs_loop, hfind, if_pos hmem]
        exact ih pn k already
      · by_cases hok : oracle k = true
        · obtain ⟨ih1, ih2⟩ := ih (pn + 1) (k + 1) (setInsert already idx)
          rcases hres : send_macs_loop hdr oracle slots target rest (pn + 1)
            (k + 1) (setInsert already idx) with
            ⟨records, pn2, k2, already2, survived⟩
          rw [hres] at ih1 ih2
          simp only [send_macs_loop, hfind, if_neg hmem, send_slot_data,
            hok, if_true, hres]
          simp only [List.filter_cons, decide_eq_true_eq, List.map_cons,
            List.length_cons] at ih1 ih2 ⊢
          simp only [if_true]
          simp only [List.map_cons, List.length_cons]
          constructor
          · rw [List.range'_succ pn _ 1]
            simp only [List.cons.injEq]
            refine ⟨rfl, ?_⟩
            simpa [record_pn, slot_data_message] using ih1
          · omega
        · simp only [send_macs_loop, hfind, if_neg hmem, send_slot_data,
            hok, Bool.false_eq_true, if_false]
          simp [List.filter_cons, hok, List.range']

theorem send_slots_loop_shape (hdr : MessageHeader) (oracle : Nat → Bool)
    (slots : List ServerSlot) (target : Nat) (lst : List Nat)
    (pn k : Nat) (already : List Nat) :
    (∀ r ∈ (send_slots_loop hdr oracle slots target lst pn k already).1,
      r.target = target) ∧
    ((send_slots_loop hdr oracle slots target lst pn k already).2.2.2.2 =
        true →
      ∀ r ∈ (send_slots_loop hdr oracle slots target lst pn k already).1,
        r.ok = true) ∧
    ((send_slots_loop hdr oracle slots target lst pn k already).2.2.2.2 =
        false →
      ∃ pre rec,
        (send_slots_loop hdr oracle slots target lst pn k already).1 =
          pre ++ [rec] ∧ rec.ok = false ∧ ∀ r ∈ pre, r.ok = true) := by
  induction lst generalizing pn k already with
  | nil => simp [send_slots_loop]
  | cons s rest ih =>
    by_cases hok : oracle k = true
    · obtain ⟨ih1, ih2, ih3⟩ := ih (pn + 1) (k + 1) (setInsert already s)
      rcases hres : send_slots_loop hdr oracle slots target rest (pn + 1)
        (k + 1) (setInsert already s) with ⟨records, pn2, k2, already2, survived⟩
      rw [hres] at ih1 ih2 ih3
      dsimp only at ih1 ih2 ih3
      simp only [send_slots_loop, send_slot_data, hok, if_true, hres]
      refine ⟨?_, ?_, ?_⟩
      · intro r hr
        rcases List.mem_cons.mp hr with h | h
        · rw [h]
        · exact ih1 r h
      · intro hs r hr
        rcases List.mem_cons.mp hr with h | h
        · rw [h]
        · exact ih2 hs r h
      · intro hs
        obtain ⟨pre, rec, heq, hrec, hpre⟩ := ih3 hs
        refine ⟨{ target := target
                  slotIdx := s
                  message := slot_data_message hdr
                    (slots.getD s ServerSlot.default) pn
                  ok := true } :: pre, rec, by rw [heq]; simp, hrec, ?_⟩
        intro r hr
        rcases List.mem_cons.mp hr with h | h
        · rw [h]
        · exact hpre r h
    · simp only [send_slots_loop, send_slot_data, hok, Bool.false_eq_true,
        if_false]
      refine ⟨?_, ?_, ?_⟩
      · intro r hr
        simp only [List.mem_singleton] at hr
        rw [hr]
      · intro hs
        simp at hs
      · intro _
        refine ⟨[], _, rfl, ?_, by simp⟩
        simp [hok]

theorem send_macs_loop_shape (hdr : MessageHeader) (oracle : Nat → Bool)
    (slots : List ServerSlot) (target : Nat) (lst : List Nat)
    (pn k : Nat) (already : List Nat) :
    (∀ r ∈ (send_macs_loop hdr oracle slots target lst pn k already).1,
      r.target = target) ∧
    ((send_macs_loop hdr oracle slots target lst pn k already).2.2.2.2 =
        true →
      ∀ r ∈ (send_macs_loop hdr oracle slots target lst pn k already).1,
        r.ok = true) ∧
    ((send_macs_loop hdr oracle slots target lst pn k already).2.2.2.2 =
        false →
      ∃ pre rec,
        (send_macs_loop hdr oracle slots target lst pn k already).1 =
          pre ++ [rec] ∧ rec.ok = false ∧ ∀ r ∈ pre, r.ok = true) := by
  induction lst generalizing pn k already with
  | nil => simp [send_macs_loop]
  | cons mac rest ih =>
    cases hfind : slots.findIdx?
        (fun slot => slot.controller_info.mac_address = mac) with
    | none =>
      simp only [send_macs_loop, hfind]
      exact ih pn k already
    | some idx =>
      by_cases hmem : idx ∈ already
      · simp only [send_macs_loop, hfind, if_pos hmem]
        exact ih pn k already
      · by_cases hok : oracle k = true
        · obtain ⟨ih1, ih2, ih3⟩ := ih (pn + 1) (k + 1) (setInsert already idx)
          rcases hres : send_macs_loop hdr oracle slots target rest (pn + 1)
            (k + 1) (setInsert already idx) with
            ⟨records, pn2, k2, already2, survived⟩
          rw [hres] at ih1 ih2 ih3
          dsimp only at ih1 ih2 ih3
          simp only [send_macs_loop, hfind, if_neg hmem, send_slot_data,
            hok, if_true, hres]
          refine ⟨?_, ?_, ?_⟩
          · intro r hr
            rcases List.mem_cons.mp hr with h | h
            · rw [h]
            · exact ih1 r h
          · intro hs r hr
            rcases List.mem_cons.mp hr with h | h
            · rw [h]
            · exact ih2 hs r h
          · intro hs
            obtain ⟨pre, rec, heq, hrec, hpre⟩ := ih3 hs
            refine ⟨{ target := target
                      slotIdx := idx
                      message := slot_data_message hdr
                        (slots.getD idx ServerSlot.default) pn
                      ok := true } :: pre, rec, by rw [heq]; simp, hrec, ?_⟩
            intro r hr
            rcases List.mem_cons.mp hr with h | h
            · rw [h]
            · exact hpre r h
        · simp only [send_macs_loop, hfind, if_neg hmem, send_slot_data,
            hok, Bool.false_eq_true, if_false]
          refine ⟨?_, ?_, ?_⟩
          · intro r hr
            simp only [List.mem_singleton] at hr
            rw [hr]
          · intro hs
            simp at hs
          · intro _
            refine ⟨[], _, rfl, ?_, by simp⟩
            simp [hok]

theorem setInsert_mem (s : List Nat) (x y : Nat) (h : y ∈ s) :
    y ∈ setInsert s x := by
  unfold setInsert
  split
  · exact h
  · simp [h]

theorem setInsert_self (s : List Nat) (x : Nat) : x ∈ setInsert s x := by
  unfold setInsert
  split
  · assumption
  · simp

theorem send_slots_loop_idx (hdr : MessageHeader) (oracle : Nat → Bool)
    (slots : List ServerSlot) (target : Nat) (lst : List Nat)
    (pn k : Nat) (already : List Nat) :
    ((send_slots_loop hdr oracle slots target lst pn k already).1.map
      (·.slotIdx) =
      lst.take (send_slots_loop hdr oracle slots target lst pn k
        already).1.length) ∧
    (∀ x ∈ already,
      x ∈ (send_slots_loop hdr oracle slots target lst pn k already).2.2.2.1) ∧
    (∀ r ∈ (send_slots_loop hdr oracle slots target lst pn k already).1,
      r.ok = true →
      r.slotIdx ∈
        (send_slots_loop hdr oracle slots target lst pn k already).2.2.2.1) ∧
    ((send_slots_loop hdr oracle slots target lst pn k already).2.2.2.2 =
        true →
      (send_slots_loop hdr oracle slots target lst pn k already).1.length =
        lst.length) := by
  induction lst generalizing pn k already with
  | nil => simp [send_slots_loop]
  | cons s rest ih =>
    by_cases hok : oracle k = true
    · obtain ⟨ih1, ih2, ih3, ih4⟩ := ih (pn + 1) (k + 1) (setInsert already s)
      rcases hres : send_slots_loop hdr oracle slots target rest (pn + 1)
        (k + 1) (setInsert already s) with ⟨records, pn2, k2, already2, survived⟩
      rw [hres] at ih1 ih2 ih3 ih4
      dsimp only at ih1 ih2 ih3 ih4
      simp only [send_slots_loop, send_slot_data, hok, if_true, hres]
      refine ⟨?_, ?_, ?_, ?_⟩
      · simp only [List.map_cons, List.length_cons, List.take_succ_cons,
          List.cons.injEq]
        exact ⟨trivial, ih1⟩
      · intro x hx
        exact ih2 x (setInsert_mem _ _ _ hx)
      · intro r hr hrok
        rcases List.mem_cons.mp hr with h | h
        · rw [h]
          exact ih2 s (setInsert_self _ _)
        · exact ih3 r h hrok
      · intro hs
        simp only [List.length_cons, ih4 hs]
    · simp only [send_slots_loop, send_slot_data, hok, Bool.false_eq_true,
        if_false]
      refine ⟨by simp, fun x hx => hx, ?_, by simp⟩
      intro r hr hrok
      simp only [List.mem_singleton] at hr
      rw [hr] at hrok
      simp [hok] at hrok

theorem send_macs_loop_idx (hdr : MessageHeader) (oracle : Nat → Bool)
    (slots : List ServerSlot) (target : Nat) (lst : List Nat)
    (pn k : Nat) (already : List Nat) :
    ((send_macs_loop hdr oracle slots target lst pn k already).1.map
      (·.slotIdx)).Nodup ∧
    (∀ i ∈ (send_macs_loop hdr oracle slots target lst pn k already).1.map
      (·.slotIdx), i ∉ already) := by
  induction lst generalizing pn k already with
  | nil => simp [send_macs_loop]
  | cons mac rest ih =>
    cases hfind : slots.findIdx?
        (fun slot => slot.controller_info.mac_address = mac) with
    | none =>
      simp only [send_macs_loop, hfind]
      exact ih pn k already
    | some idx =>
      by_cases hmem : idx ∈ already
      · simp only [send_macs_loop, hfind, if_pos hmem]
        exact ih pn k already
      · by_cases hok : oracle k = true
        · obtain ⟨ih1, ih2⟩ := ih (pn + 1) (k + 1) (setInsert already idx)
          rcases hres : send_macs_loop hdr oracle slots target rest (pn + 1)
            (k + 1) (setInsert already idx) with
            ⟨records, pn2, k2, already2, survived⟩
          rw [hres] at ih1 ih2
          dsimp only at ih1 ih2
          simp only [send_macs_loop, hfind, if_neg hmem, send_slot_data,
            hok, if_true, hres]
          constructor
          · simp only [List.map_cons, List.nodup_cons]
            refine ⟨?_, ih1⟩
            intro hcontra
            exact absurd (setInsert_self already idx) (by
              have := ih2 idx hcontra
              intro hmem2
              exact this hmem2)
          · intro i hi
            simp only [List.map_cons, List.mem_cons] at hi
            rcases hi with h | h
            · rw [h]
              exact hmem
            · intro hia
              exact ih2 i h (setInsert_mem _ _ _ hia)
        · simp only [send_macs_loop, hfind, if_neg hmem, send_slot_data,
            hok, Bool.false_eq_true, if_false]
          constructor
          · simp
          · intro i hi
            simp only [List.map_cons, List.map_nil, List.mem_singleton] at hi
            rw [hi]
            exact hmem

theorem send_macs_loop_skip (hdr : MessageHeader) (oracle : Nat → Bool)
    (slots : List ServerSlot) (target mac : Nat) (rest : List Nat)
    (pn k : Nat) (already : List Nat)
    (hfind : slots.findIdx?
      (fun slot => slot.controller_info.mac_address = mac) = none) :
    send_macs_loop hdr oracle slots target (mac :: rest) pn k already =
      send_macs_loop hdr oracle slots target rest pn k already := by
  simp [send_macs_loop, hfind]

theorem apply_request_pn (req : RequestedControllerData)
    (request : ControllerDataRequest) :
    (apply_request req request).packet_number = req.packet_number := by
  cases request <;> rfl

theorem subscribe_fresh (clients : List (Nat × RequestedControllerData))
    (source : Nat) (request : ControllerDataRequest)
    (hfresh : source ∉ clients.map Prod.fst) :
    subscribe clients source request = clients ++
      [(source, apply_request
        { packet_number := 0, slot_numbers := [], mac_addresses := [] }
        request)] := by
  induction clients with
  | nil => rfl
  | cons c rest ih =>
    obtain ⟨addr, req⟩ := c
    simp only [List.map_cons, List.mem_cons, not_or] at hfresh
    simp only [subscribe, if_neg (Ne.symm hfresh.1), List.cons_append,
      List.cons.injEq]
    exact ⟨trivial, ih hfresh.2⟩

theorem process_client_eq_true (hdr : MessageHeader) (oracle : Nat → Bool)
    (slots : List ServerSlot) (target : Nat)
    (req : RequestedControllerData) (k : Nat)
    (records1 records2 : List SentRecord) (pn1 k1 pn2 k2 : Nat)
    (already1 already2 : List Nat) (survived2 : Bool)
    (hres1 : send_slots_loop hdr oracle slots target req.slot_numbers
      req.packet_number k [] = (records1, pn1, k1, already1, true))
    (hres2 : send_macs_loop hdr oracle slots target req.mac_addresses
      pn1 k1 already1 = (records2, pn2, k2, already2, survived2)) :
    process_client hdr oracle slots target req k =
      (records1 ++ records2, { req with packet_number := pn2 }, k2,
        survived2) := by
  unfold process_client
  rw [hres1]
  dsimp only
  rw [hres2]
  simp

theorem process_client_eq_false (hdr : MessageHeader) (oracle : Nat → Bool)
    (slots : List ServerSlot) (target : Nat)
    (req : RequestedControllerData) (k : Nat)
    (records1 : List SentRecord) (pn1 k1 : Nat) (already1 : List Nat)
    (hres1 : send_slots_loop hdr oracle slots target req.slot_numbers
      req.packet_number k [] = (records1, pn1, k1, already1, false)) :
    process_client hdr oracle slots target req k =
      (records1, { req with packet_number := pn1 }, k1, false) := by
  unfold process_client
  rw [hres1]
  simp

theorem process_client_sets (hdr : MessageHeader) (oracle : Nat → Bool)
    (slots : List ServerSlot) (target : Nat)
    (req : RequestedControllerData) (k : Nat) :
    (process_client hdr oracle slots target req k).2.1.slot_numbers =
      req.slot_numbers ∧
    (process_client hdr oracle slots target req k).2.1.mac_addresses =
      req.mac_addresses := by
  rcases hres1 : send_slots_loop hdr oracle slots target req.slot_numbers
    req.packet_number k [] with ⟨records1, pn1, k1, already1, survived1⟩
  cases survived1 with
  | false => rw [process_client_eq_false hdr oracle slots target req k
      records1 pn1 k1 already1 hres1]; exact ⟨rfl, rfl⟩
  | true =>
    rcases hres2 : send_macs_loop hdr oracle slots target req.mac_addresses
      pn1 k1 already1 with ⟨records2, pn2, k2, already2, survived2⟩
    rw [process_client_eq_true hdr oracle slots target req k records1
      records2 pn1 k1 pn2 k2 already1 already2 survived2 hres1 hres2]
    exact ⟨rfl, rfl⟩

theorem process_client_pns (hdr : MessageHeader) (oracle : Nat → Bool)
    (slots : List ServerSlot) (target : Nat)
    (req : RequestedControllerData) (k : Nat) :
    ((process_client hdr oracle slots target req k).1.filter
        (·.ok)).map record_pn =
      List.range' req.packet_number
        ((process_client hdr oracle slots target req k).1.filter
          (·.ok)).length ∧
    (process_client hdr oracle slots target req k).2.1.packet_number =
      req.packet_number +
        ((process_client hdr oracle slots target req k).1.filter
          (·.ok)).length := by
  obtain ⟨h1p, h1n⟩ := send_slots_loop_pns hdr oracle slots target
    req.slot_numbers req.packet_number k []
  rcases hres1 : send_slots_loop hdr oracle slots target req.slot_numbers
    req.packet_number k [] with ⟨records1, pn1, k1, already1, survived1⟩
  rw [hres1] at h1p h1n
  dsimp only at h1p h1n
  cases survived1 with
  | false =>
    rw [process_client_eq_false hdr oracle slots target req k records1 pn1
      k1 already1 hres1]
    exact ⟨h1p, h1n⟩
  | true =>
    obtain ⟨h2p, h2n⟩ := send_macs_loop_pns hdr oracle slots target
      req.mac_addresses pn1 k1 already1
    rcases hres2 : send_macs_loop hdr oracle slots target req.mac_addresses
      pn1 k1 already1 with ⟨records2, pn2, k2, already2, survived2⟩
    rw [hres2] at h2p h2n
    dsimp only at h2p h2n
    rw [process_client_eq_true hdr oracle slots target req k records1
      records2 pn1 k1 pn2 k2 already1 already2 survived2 hres1 hres2]
    dsimp only
    constructor
    · rw [List.filter_append, List.map_append, List.length_append, h1p, h2p,
        h1n]
      have hr := List.range'_append req.packet_number
        (records1.filter (·.ok)).length (records2.filter (·.ok)).length 1
      simp only [one_mul] at hr
      rw [hr, Nat.add_comm]
    · rw [List.filter_append, List.length_append, h2n, h1n]
      omega

theorem process_client_nodup (hdr : MessageHeader) (oracle : Nat → Bool)
    (slots : List ServerSlot) (target : Nat)
    (req : RequestedControllerData) (k : Nat)
    (hnodup : req.slot_numbers.Nodup) :
    ((process_client hdr oracle slots target req k).1.map
      (·.slotIdx)).Nodup := by
  obtain ⟨hidx1, _, hidx3, _⟩ := send_slots_loop_idx hdr oracle slots target
    req.slot_numbers req.packet_number k []
  obtain ⟨_, hall1, _⟩ := send_slots_loop_shape hdr oracle slots target
    req.slot_numbers req.packet_number k []
  rcases hres1 : send_slots_loop hdr oracle slots target req.slot_numbers
    req.packet_number k [] with ⟨records1, pn1, k1, already1, survived1⟩
  rw [hres1] at hidx1 hidx3 hall1
  dsimp only at hidx1 hidx3 hall1
  have hnd1 : (records1.map (·.slotIdx)).Nodup := by
    rw [hidx1]
    exact hnodup.sublist (List.take_sublist _ _)
  cases survived1 with
  | false =>
    rw [process_client_eq_false hdr oracle slots target req k records1 pn1
      k1 already1 hres1]
    exact hnd1
  | true =>
    obtain ⟨hm1, hm2⟩ := send_macs_loop_idx hdr oracle slots target
      req.mac_addresses pn1 k1 already1
    rcases hres2 : send_macs_loop hdr oracle slots target req.mac_addresses
      pn1 k1 already1 with ⟨records2, pn2, k2, already2, survived2⟩
    rw [hres2] at hm1 hm2
    dsimp only at hm1 hm2
    rw [process_client_eq_true hdr oracle slots target req k records1
      records2 pn1 k1 pn2 k2 already1 already2 survived2 hres1 hres2]
    dsimp only
    rw [List.map_append]
    refine List.Nodup.append hnd1 hm1 ?_
    intro x hx1 hx2
    obtain ⟨r, hr, hrx⟩ := List.mem_map.mp hx1
    have hrok : r.ok = true := hall1 rfl r hr
    have hmem : r.slotIdx ∈ already1 := hidx3 r hr hrok
    rw [hrx] at hmem
    exact hm2 x hx2 hmem

theorem process_client_shape (hdr : MessageHeader) (oracle : Nat → Bool)
    (slots : List ServerSlot) (target : Nat)
    (req : RequestedControllerData) (k : Nat) :
    (∀ r ∈ (process_client hdr oracle slots target req k).1,
      r.target = target) ∧
    ((process_client hdr oracle slots target req k).2.2.2 = false →
      ∃ pre rec, (process_client hdr oracle slots target req k).1 =
        pre ++ [rec] ∧ rec.ok = false ∧ ∀ r ∈ pre, r.ok = true) := by
  obtain ⟨htg1, hall1, hfail1⟩ := send_slots_loop_shape hdr oracle slots
    target req.slot_numbers req.packet_number k []
  rcases hres1 : send_slots_loop hdr oracle slots target req.slot_numbers
    req.packet_number k [] with ⟨records1, pn1, k1, already1, survived1⟩
  rw [hres1] at htg1 hall1 hfail1
  dsimp only at htg1 hall1 hfail1
  cases survived1 with
  | false =>
    rw [process_client_eq_false hdr oracle slots target req k records1 pn1
      k1 already1 hres1]
    exact ⟨htg1, fun _ => hfail1 rfl⟩
  | true =>
    obtain ⟨htg2, hall2, hfail2⟩ := send_macs_loop_shape hdr oracle slots
      target req.mac_addresses pn1 k1 already1
    rcases hres2 : send_macs_loop hdr oracle slots target req.mac_addresses
      pn1 k1 already1 with ⟨records2, pn2, k2, already2, survived2⟩
    rw [hres2] at htg2 hall2 hfail2
    dsimp only at htg2 hall2 hfail2
    rw [process_client_eq_true hdr oracle slots target req k records1
      records2 pn1 k1 pn2 k2 already1 already2 survived2 hres1 hres2]
    dsimp only
    constructor
    · intro r hr
      rcases List.mem_append.mp hr with h | h
      · exact htg1 r h
      · exact htg2 r h
    · intro hsurv
      obtain ⟨pre2, rec, heq2, hrec, hpre2⟩ := hfail2 hsurv
      refine ⟨records1 ++ pre2, rec, ?_, hrec, ?_⟩
      · rw [heq2, List.append_assoc]
      · intro r hr
        rcases List.mem_append.mp hr with h | h
        · exact hall1 rfl r h
        · exact hpre2 r h

/-- The value of the running send counter when the fan-out pass reaches a
given position of the registry (the `retain` traversal is sequential). -/
def fanout_counter (hdr : MessageHeader) (oracle : Nat → Bool)
    (slots : List ServerSlot) :
    List (Nat × RequestedControllerData) → Nat → Nat
  | [], k => k
  | (addr, req) :: rest, k =>
    fanout_counter hdr oracle slots rest
      (process_client hdr oracle slots addr req k).2.2.1

theorem send_controller_data_cons (hdr : MessageHeader) (oracle : Nat → Bool)
    (slots : List ServerSlot) (addr : Nat) (req : RequestedControllerData)
    (rest : List (Nat × RequestedControllerData)) (k : Nat)
    (records : List SentRecord) (req' : RequestedControllerData)
    (k' : Nat) (survived : Bool)
    (hpc : process_client hdr oracle slots addr req k =
      (records, req', k', survived)) :
    send_controller_data hdr oracle slots ((addr, req) :: rest) k =
      (records ++ (send_controller_data hdr oracle slots rest k').1,
       (if survived then [(addr, req')] else []) ++
         (send_controller_data hdr oracle slots rest k').2.1,
       (send_controller_data hdr oracle slots rest k').2.2) := by
  unfold send_controller_data
  rw [hpc]
  dsimp only
  cases rest <;> rfl

theorem send_controller_data_provenance (hdr : MessageHeader)
    (oracle : Nat → Bool) (slots : List ServerSlot) :
    ∀ (clients : List (Nat × RequestedControllerData)) (k : Nat),
    ∀ p ∈ (send_controller_data hdr oracle slots clients k).2.1,
      ∃ req, (p.1, req) ∈ clients ∧
        p.2.slot_numbers = req.slot_numbers ∧
        p.2.mac_addresses = req.mac_addresses := by
  intro clients
  induction clients with
  | nil => intro k p hp; simp [send_controller_data] at hp
  | cons c rest ih =>
    obtain ⟨addr, req⟩ := c
    intro k p hp
    rcases hpc : process_client hdr oracle slots addr req k with
      ⟨records, req', k', survived⟩
    rw [send_controller_data_cons hdr oracle slots addr req rest k records
      req' k' survived hpc] at hp
    dsimp only at hp
    rcases List.mem_append.mp hp with h | h
    · cases survived with
      | false => simp at h
      | true =>
        simp only [if_true, List.mem_singleton] at h
        subst h
        obtain ⟨hs, hm⟩ := process_client_sets hdr oracle slots addr req k
        rw [hpc] at hs hm
        exact ⟨req, List.mem_cons_self _ _, hs, hm⟩
    · obtain ⟨req2, hmem, hs, hm⟩ := ih k' p h
      exact ⟨req2, List.mem_cons_of_mem _ hmem, hs, hm⟩

theorem send_controller_data_retain (hdr : MessageHeader)
    (oracle : Nat → Bool) (slots : List ServerSlot) :
    ∀ (pre : List (Nat × RequestedControllerData)) (post :
      List (Nat × RequestedControllerData)) (addr : Nat)
      (req : RequestedControllerData) (k : Nat),
    addr ∉ (pre ++ post).map Prod.fst →
    ((process_client hdr oracle slots addr req
        (fanout_counter hdr oracle slots pre k)).2.2.2 = false →
      addr ∉ (send_controller_data hdr oracle slots
        (pre ++ (addr, req) :: post) k).2.1.map Prod.fst) ∧
    ((process_client hdr oracle slots addr req
        (fanout_counter hdr oracle slots pre k)).2.2.2 = true →
      (addr, (process_client hdr oracle slots addr req
          (fanout_counter hdr oracle slots pre k)).2.1) ∈
        (send_controller_data hdr oracle slots
          (pre ++ (addr, req) :: post) k).2.1) := by
  intro pre
  induction pre with
  | nil =>
    intro post addr req k hnotin
    simp only [List.nil_append] at hnotin ⊢
    rcases hpc : process_client hdr oracle slots addr req k with
      ⟨records, req', k', survived⟩
    have hcons := send_controller_data_cons hdr oracle slots addr req post k
      records req' k' survived hpc
    simp only [fanout_counter, hpc]
    rw [hcons]
    dsimp only
    constructor
    · intro hsurv
      subst hsurv
      rw [if_neg (by simp), List.nil_append]
      intro hmem
      obtain ⟨p, hp, hp1⟩ := List.mem_map.mp hmem
      obtain ⟨req2, hmem2, _, _⟩ := send_controller_data_provenance hdr
        oracle slots post k' p hp
      apply hnotin
      rw [← hp1]
      exact List.mem_map.mpr ⟨(p.1, req2), hmem2, rfl⟩
    · intro hsurv
      subst hsurv
      rw [if_pos rfl]
      exact List.mem_cons_self _ _
  | cons c pre' ih =>
    obtain ⟨a, r⟩ := c
    intro post addr req k hnotin
    simp only [List.cons_append, List.map_cons, List.mem_cons, not_or]
      at hnotin
    obtain ⟨hne, hnotin'⟩ := hnotin
    rcases hpc0 : process_client hdr oracle slots a r k with
      ⟨records0, r0, k0, survived0⟩
    have hcons := send_controller_data_cons hdr oracle slots a r
      (pre' ++ (addr, req) :: post) k records0 r0 k0 survived0 hpc0
    have hcounter : fanout_counter hdr oracle slots ((a, r) :: pre') k =
        fanout_counter hdr oracle slots pre' k0 := by
      simp only [fanout_counter, hpc0]
    obtain ⟨ih1, ih2⟩ := ih post addr req k0 hnotin'
    rw [hcounter]
    simp only [List.cons_append]
    rw [hcons]
    dsimp only
    constructor
    · intro hsurv
      rw [List.map_append, List.mem_append]
      rintro (h | h)
      · cases survived0 with
        | false => simp at h
        | true =>
          simp only [if_true, List.map_cons, List.map_nil,
            List.mem_singleton] at h
          exact hne h
      · exact ih1 hsurv h
    · intro hsurv
      rw [List.mem_append]
      exact Or.inr (ih2 hsurv)

theorem getD_set_self_server (l : List ServerSlot) (i : Nat) (v : ServerSlot)
    (h : i < l.length) : (l.set i v).getD i ServerSlot.default = v := by
  simp [List.getD_eq_getElem?_getD, List.getElem?_set_self, h]

theorem getD_set_other_server (l : List ServerSlot) (i j : Nat)
    (v : ServerSlot) (h : i ≠ j) :
    (l.set i v).getD j ServerSlot.default =
      l.getD j ServerSlot.default := by
  simp [List.getD_eq_getElem?_getD, List.getElem?_set_ne h]

theorem update_controller_data_slots (hdr : MessageHeader)
    (oracle : Nat → Bool) (slots : List ServerSlot)
    (clients : List (Nat × RequestedControllerData)) (slot_number : Nat)
    (controller_data : ControllerData) (k : Nat) :
    (update_controller_data hdr oracle slots clients slot_number
      controller_data k).2.1 =
      slots.set slot_number
        { slots.getD slot_number ServerSlot.default with
          controller_data := controller_data } := rfl

theorem update_controller_data_clients (hdr : MessageHeader)
    (oracle : Nat → Bool) (slots : List ServerSlot)
    (clients : List (Nat × RequestedControllerData)) (slot_number : Nat)
    (controller_data : ControllerData) (k : Nat) :
    (update_controller_data hdr oracle slots clients slot_number
      controller_data k).2.2.1 =
      (send_controller_data hdr oracle
        (slots.set slot_number
          { slots.getD slot_number ServerSlot.default with
            controller_data := controller_data }) clients k).2.1 := rfl

/-- A client-role header as `Client::new` builds it (`source_id` 0). -/
def hdrC : MessageHeader :=
  { source := .Client, protocol_version := PROTOCOL_VERSION,
    message_length := 0, checksum := 0, source_id := 0 }

/-- A server-role header as `Server::new` builds it (`source_id` 0). -/
def hdrS : MessageHeader :=
  { source := .Server, protocol_version := PROTOCOL_VERSION,
    message_length := 0, checksum := 0, source_id := 0 }

/-- A `ControllerData` request subscribing by `MAC(1)`. -/
def C1msg : Message :=
  { header := hdrC, message_type := .ControllerData,
    payload := .ControllerDataRequest (.MAC 1) }

/-- The wire bytes `encode_message` produces for `C1msg`. -/
def C1bytes : List Nat :=
  [68, 83, 85, 67, 233, 3, 12, 0, 72, 39, 42, 158, 0, 0, 0, 0, 2, 0, 16,
   0, 2, 0, 1, 0, 0, 0, 0, 0]

/-- What `parse_message` returns for `C1bytes`: the MAC came back as 256. -/
def C1parsed : Message :=
  { header := { source := .Client
                protocol_version := PROTOCOL_VERSION
                message_length := 12
                checksum := 2653562696
                source_id := 0 }
    message_type := .ControllerData
    payload := .ControllerDataRequest (.MAC 256) }

/-- Claim C1 (code bug).  The spec's round-trip property P1 fails: for the
message carrying `ControllerDataRequest::MAC(1)`, `encode_message`
produces `C1bytes`, and `parse_message` with the matching source role and
checksum verification enabled returns a *different* message — the MAC
decodes as 256, because `parse_controller_data_request` never skips the
zero padding byte between the tag and the MAC field, so the padding byte
becomes the MAC's low byte. -/
theorem C1_mac_roundtrip_codebug :
    encode_message C1msg = .ok C1bytes ∧
    parse_message .Client C1bytes true = .ok C1parsed ∧
    C1msg.payload = .ControllerDataRequest (.MAC 1) ∧
    C1parsed.payload = .ControllerDataRequest (.MAC 256) ∧
    C1parsed ≠ C1msg := by
  set_option maxRecDepth 10000 in decide

/-- The controller info with `slot = 4` that `parse_controller_info`
accepts (its bound check is `slot > 4`, not `slot ≥ 4`). -/
def C2ci : ControllerInfo :=
  { ControllerInfo.default with slot := 4 }

/-- A server `ConnectedControllers` response advertising slot 4. -/
def C2msg : Message :=
  { header := hdrS, message_type := .ConnectedControllers,
    payload := .ConnectedControllerResponse C2ci }

/-- The wire bytes `encode_message` produces for `C2msg`. -/
def C2bytes : List Nat :=
  [68, 83, 85, 83, 233, 3, 16, 0, 243, 154, 42, 64, 0, 0, 0, 0, 1, 0, 16,
   0, 4, 0, 0, 0, 0, 0, 0, 0, 0, 0, 0, 0]

/-- What `parse_message` returns for `C2bytes`. -/
def C2parsed : Message :=
  { header := { source := .Server
                protocol_version := PROTOCOL_VERSION
                message_length := 16
                checksum := 1076534003
                source_id := 0 }
    message_type := .ConnectedControllers
    payload := .ConnectedControllerResponse C2ci }

/-- Claim C2 (code bug).  `parse_controller_info` accepts `slot = 4`
(its check is `slot > 4`), a full packet advertising slot 4 decodes
successfully with checksum verification on, and the client's
`handle_response` then indexes its 4-element slot array with 4 — the
out-of-bounds branch (`none` here, a panic in the source) is reachable
from a decoded message, refuting the claim that every accepted slot
value is strictly less than 4. -/
theorem C2_slot_four_codebug :
    parse_controller_info [4, 0, 0, 0, 0, 0, 0, 0, 0, 0, 0] =
      .ok (C2ci, []) ∧
    ¬ C2ci.slot < 4 ∧
    encode_message C2msg = .ok C2bytes ∧
    parse_message .Server C2bytes true = .ok C2parsed ∧
    C2parsed.payload = .ConnectedControllerResponse C2ci ∧
    client_initial_slots.length = 4 ∧
    handle_response client_initial_slots C2parsed = none := by
  set_option maxRecDepth 10000 in decide

theorem parse_encode_message_payload_error {m : Message} {pb b : List Nat}
    {e : ParseError}
    (hp : encode_message_payload m.payload = .ok pb)
    (hver : m.header.protocol_version = PROTOCOL_VERSION)
    (hsid : m.header.source_id < 2 ^ 32)
    (hlen : pb.length + 4 < 2 ^ 16)
    (he : encode_message m = .ok b)
    (hperr : parse_message_payload m.header.source m.message_type pb =
      .error e) :
    parse_message m.header.source b true = .error e := by
  rw [encode_message_eq hp] at he
  simp only [Except.ok.injEq] at he
  subst he
  have hpblt := encode_message_payload_lt hp
  have htblt := encode_message_type_lt m.message_type
  have hcslt : compute_checksum (magicBytes m.header.source ++
      leBytes 2 m.header.protocol_version ++
      leBytes 2 ((pb.length + 4) % 2 ^ 16) ++
      leBytes 4 m.header.checksum ++ leBytes 4 m.header.source_id ++
      encode_message_type m.message_type ++ pb) < 2 ^ 32 :=
    compute_checksum_lt _ (packet_bytes_lt m.header.source
      m.header.protocol_version ((pb.length + 4) % 2 ^ 16) m.header.checksum
      m.header.source_id (encode_message_type m.message_type) pb htblt hpblt)
  have hmod : (pb.length + 4) % 2 ^ 16 = pb.length + 4 :=
    Nat.mod_eq_of_lt hlen
  have hhp := parse_message_header_produces m.header.source
    m.header.protocol_version ((pb.length + 4) % 2 ^ 16)
    (compute_checksum (magicBytes m.header.source ++
      leBytes 2 m.header.protocol_version ++
      leBytes 2 ((pb.length + 4) % 2 ^ 16) ++
      leBytes 4 m.header.checksum ++ leBytes 4 m.header.source_id ++
      encode_message_type m.message_type ++ pb))
    m.header.source_id (by rw [hver]; decide)
    (Nat.mod_lt _ (by norm_num)) hcslt hsid
  have hhdr := hhp (encode_message_type m.message_type ++ pb)
  unfold parse_message
  simp only [List.append_assoc] at hhdr ⊢
  rw [hhdr]
  dsimp only
  rw [if_neg (by rw [hver]; simp)]
  rw [if_neg ?hlength]
  case hlength =>
    simp only [List.length_append, leBytes_length, magicBytes_length,
      encode_message_type]
    rw [hmod]
    omega
  rw [if_neg ?hchecksum]
  case hchecksum =>
    simp only [ne_eq, not_and, Decidable.not_not]
    intro _
    exact compute_checksum_cs_indep m.header.source
      m.header.protocol_version ((pb.length + 4) % 2 ^ 16) _
      m.header.checksum m.header.source_id
      (encode_message_type m.message_type) pb
  rw [parse_message_type_produces m.message_type pb]
  dsimp only
  rw [hperr]

theorem encode_controller_info_length (ci : ControllerInfo) :
    (encode_controller_info ci).length = 11 := by
  simp [encode_controller_info]

theorem encode_controller_data_length (pn : Nat) (cd : ControllerData) :
    (encode_controller_data pn cd).length = 69 := by
  simp [encode_controller_data, encode_touch_data]

/-- Claim C3 (corrected).  Payload shape is determined by
`(source, message_type)` for the fan-out messages the server actually
sends — a `ConnectedControllers` info response decodes to
`ConnectedControllerResponse` and a `ControllerData` datagram decodes to
`ControllerData` — but the claim fails for the server's reply to a
`ProtocolVersion` request: that reply is typed `ConnectedControllers`
while carrying a `ProtocolVersion` payload, and decoding its bytes with
`source = Server` fails with `invalidSlotNumber` instead of yielding the
payload §3 lists for `(Server, ConnectedControllers)`. -/
theorem C3_payload_shape (hdr : MessageHeader) (slots : List ServerSlot)
    (slot_number pn : Nat) (slot : ServerSlot)
    (hsrc : hdr.source = .Server)
    (hver : hdr.protocol_version = PROTOCOL_VERSION)
    (hsid : hdr.source_id < 2 ^ 32)
    (hci : wf_controller_info
      (slots.getD slot_number ServerSlot.default).controller_info)
    (hci2 : wf_controller_info slot.controller_info)
    (hcd : wf_controller_data slot.controller_data)
    (hpn : pn < 2 ^ 32) :
    (∀ b, encode_message
        (connected_controller_info_message hdr slots slot_number) = .ok b →
      ∃ hdr2, parse_message .Server b true = .ok
        { header := hdr2
          message_type := .ConnectedControllers
          payload := .ConnectedControllerResponse
            (slots.getD slot_number ServerSlot.default).controller_info }) ∧
    (∀ b, encode_message (slot_data_message hdr slot pn) = .ok b →
      ∃ hdr2, parse_message .Server b true = .ok
        { header := hdr2
          message_type := .ControllerData
          payload := .ControllerData pn slot.controller_info
            slot.controller_data }) ∧
    (∀ b, encode_message (protocol_version_message hdr) = .ok b →
      parse_message .Server b true = .error .invalidSlotNumber) := by
  refine ⟨?_, ?_, ?_⟩
  · intro b he
    obtain ⟨hdr2, hmain, _⟩ := @parse_encode_message
      (connected_controller_info_message hdr slots slot_number)
      (encode_controller_info
        (slots.getD slot_number ServerSlot.default).controller_info ++
        leBytes 1 0)
      b
      (.ConnectedControllerResponse
        (slots.getD slot_number ServerSlot.default).controller_info)
      rfl hver hsid
      (by simp [encode_controller_info_length])
      he
      (fun r => ⟨r, by
        show parse_message_payload hdr.source .ConnectedControllers _ = _
        rw [hsrc]
        exact parse_payload_server_controllers _ hci r⟩)
    refine ⟨hdr2, ?_⟩
    rw [show (connected_controller_info_message hdr slots
      slot_number).header.source = hdr.source from rfl, hsrc] at hmain
    exact hmain
  · intro b he
    obtain ⟨hdr2, hmain, _⟩ := @parse_encode_message
      (slot_data_message hdr slot pn)
      (encode_controller_info slot.controller_info ++
        encode_controller_data pn slot.controller_data)
      b
      (.ControllerData pn slot.controller_info slot.controller_data)
      rfl hver hsid
      (by simp [encode_controller_info_length, encode_controller_data_length])
      he
      (fun r => ⟨r, by
        show parse_message_payload hdr.source .ControllerData _ = _
        rw [hsrc]
        exact parse_payload_server_data pn slot.controller_info
          slot.controller_data hpn hci2 hcd r⟩)
    refine ⟨hdr2, ?_⟩
    rw [show (slot_data_message hdr slot pn).header.source = hdr.source
      from rfl, hsrc] at hmain
    exact hmain
  · intro b he
    have hq : parse_message_payload .Server .ConnectedControllers
        (leBytes 2 PROTOCOL_VERSION) = .error .invalidSlotNumber := by
      have := parse_payload_server_quirk []
      rwa [List.append_nil] at this
    have := @parse_encode_message_payload_error
      (protocol_version_message hdr)
      (leBytes 2 PROTOCOL_VERSION)
      b .invalidSlotNumber
      rfl hver hsid (by simp) he
      (by
        show parse_message_payload hdr.source .ConnectedControllers _ = _
        rw [hsrc]
        exact hq)
    rw [show (protocol_version_message hdr).header.source = hdr.source
      from rfl, hsrc] at this
    exact this

/-- The wire bytes of the server's quirk reply to a `ProtocolVersion`
request (`send_protocol_version` with `hdrS`). -/
def C3qbytes : List Nat :=
  [68, 83, 85, 83, 233, 3, 6, 0, 7, 207, 45, 197, 0, 0, 0, 0, 1, 0, 16,
   0, 233, 3]

/-- Claim C3 counterexample: the server's concrete `ProtocolVersion` reply
(typed `ConnectedControllers`, `ProtocolVersion(1001)` payload) encodes
fine, yet decoding those bytes with `source = Server` fails with
`invalidSlotNumber` — so not every datagram the server emits decodes to
the payload shape its `(source, message_type)` pair determines. -/
theorem C3_quirk_counterexample :
    encode_message (protocol_version_message hdrS) = .ok C3qbytes ∧
    parse_message .Server C3qbytes true = .error .invalidSlotNumber := by
  set_option maxRecDepth 10000 in decide

/-- A connected server slot with a nonzero MAC, for concrete instances. -/
def demo_slot1 : ServerSlot :=
  { controller_info := { ControllerInfo.default with slot := 1, mac_address := 1 }
    controller_data := ControllerData.default }

/-- A concrete 4-slot server cache as `Server::new` lays it out, with slot 1
holding MAC 1. -/
def demo_slots : List ServerSlot :=
  [ServerSlot.default, demo_slot1,
   { ServerSlot.default with
      controller_info := { ControllerInfo.default with slot := 2 } },
   { ServerSlot.default with
      controller_info := { ControllerInfo.default with slot := 3 } }]

/-- Claim C3 witness: `C3_payload_shape` applied at `hdrS`, the concrete
4-slot cache, slot 0 and packet number 5. -/
theorem C3_payload_shape_witness :
    (hdrS.source = .Server ∧ hdrS.protocol_version = PROTOCOL_VERSION ∧
     hdrS.source_id < 2 ^ 32 ∧
     wf_controller_info
       (demo_slots.getD 0 ServerSlot.default).controller_info ∧
     wf_controller_info demo_slot1.controller_info ∧
     wf_controller_data demo_slot1.controller_data ∧ (5 : Nat) < 2 ^ 32) ∧
    ((∀ b, encode_message
        (connected_controller_info_message hdrS demo_slots 0) = .ok b →
      ∃ hdr2, parse_message .Server b true = .ok
        { header := hdr2
          message_type := .ConnectedControllers
          payload := .ConnectedControllerResponse
            (demo_slots.getD 0 ServerSlot.default).controller_info }) ∧
    (∀ b, encode_message (slot_data_message hdrS demo_slot1 5) = .ok b →
      ∃ hdr2, parse_message .Server b true = .ok
        { header := hdr2
          message_type := .ControllerData
          payload := .ControllerData 5 demo_slot1.controller_info
            demo_slot1.controller_data }) ∧
    (∀ b, encode_message (protocol_version_message hdrS) = .ok b →
      parse_message .Server b true = .error .invalidSlotNumber)) :=
  ⟨⟨rfl, rfl, by decide, by decide, by decide, by decide, by decide⟩,
   C3_payload_shape hdrS demo_slots 0 5 demo_slot1 rfl rfl (by decide)
     (by decide) (by decide) (by decide) (by decide)⟩

/-- Claim C4 (corrected).  Single-byte tamper detection holds for every
byte position at offset 12 or beyond (type and payload bytes): if a
packet decodes successfully with checksum verification on, replacing the
byte at such a position by any different byte value makes decoding fail
with `badChecksum`.  (The original claim — any position outside bytes
8..12 — is refuted by `C4_counterexample`: flips inside the first 8
header bytes fail earlier, with a different error.) -/
theorem C4_flip_detection {src : MessageSource} {pre suf : List Nat}
    {b b' : Nat} {m : Message}
    (h : parse_message src (pre ++ b :: suf) true = .ok m)
    (hbytes : ∀ x ∈ pre ++ b :: suf, x < 256)
    (h12 : 12 ≤ pre.length) (hb' : b' < 256) (hne : b' ≠ b) :
    parse_message src (pre ++ b' :: suf) true = .error .badChecksum :=
  parse_message_flip_bad_checksum h hbytes h12 hb' hne

/-- The first 12 bytes of `C2bytes` (header up to the checksum field). -/
def C4pre : List Nat :=
  [68, 83, 85, 83, 233, 3, 16, 0, 243, 154, 42, 64]

/-- Bytes 13.. of `C2bytes`. -/
def C4suf : List Nat :=
  [0, 0, 0, 1, 0, 16, 0, 4, 0, 0, 0, 0, 0, 0, 0, 0, 0, 0, 0]

/-- Claim C4 witness: flipping byte 12 (value 0 → 1) of the concrete packet
`C2bytes = C4pre ++ 0 :: C4suf` turns a successful verified decode into
`badChecksum`. -/
theorem C4_flip_detection_witness :
    (parse_message .Server (C4pre ++ 0 :: C4suf) true = .ok C2parsed ∧
     (∀ x ∈ C4pre ++ 0 :: C4suf, x < 256) ∧ 12 ≤ C4pre.length ∧
     (1 : Nat) < 256 ∧ (1 : Nat) ≠ 0) ∧
    parse_message .Server (C4pre ++ 1 :: C4suf) true =
      .error .badChecksum :=
  ⟨⟨by set_option maxRecDepth 10000 in decide, by decide, by decide,
    by decide, by decide⟩,
   C4_flip_detection (b := 0) (m := C2parsed)
     (by set_option maxRecDepth 10000 in decide)
     (by decide) (by decide) (by decide) (by decide)⟩

/-- Claim C4 counterexample: byte 0 lies outside the checksum field
(bytes 8..12), yet flipping it (68 → 69) makes the verified decode fail
with `invalidMagic`, not `badChecksum` — the magic-string check runs
before the checksum comparison. -/
theorem C4_counterexample :
    parse_message .Server C2bytes true = .ok C2parsed ∧
    parse_message .Server (69 :: C2bytes.drop 1) true =
      .error .invalidMagic ∧
    ParseError.invalidMagic ≠ ParseError.badChecksum := by
  set_option maxRecDepth 10000 in decide

/-- Claim C5 (corrected).  Parse leniency holds as stated when checksum
verification is off: any successfully decoded packet still decodes to the
same message after appending arbitrary trailing bytes (the length check
is a lower bound only).  With `verify_checksum = true` the claim fails:
the checksum is computed over the *whole* received packet, so the
appended bytes change it and decoding the extended packet either happens
to succeed or fails with `badChecksum` (`C5_counterexample` shows the
failure on a real packet). -/
theorem C5_parse_leniency {src : MessageSource} {p : List Nat} {m : Message}
    (e : List Nat) (h : parse_message src p false = .ok m) :
    parse_message src (p ++ e) false = .ok m ∧
      (parse_message src (p ++ e) true = .ok m ∨
        parse_message src (p ++ e) true = .error .badChecksum) :=
  parse_message_append e h

/-- Claim C5 witness: appending one zero byte to the concrete packet
`C2bytes` keeps the unverified decode intact. -/
theorem C5_parse_leniency_witness :
    parse_message .Server C2bytes false = .ok C2parsed ∧
    (parse_message .Server (C2bytes ++ [0]) false = .ok C2parsed ∧
      (parse_message .Server (C2bytes ++ [0]) true = .ok C2parsed ∨
        parse_message .Server (C2bytes ++ [0]) true =
          .error .badChecksum)) :=
  ⟨by set_option maxRecDepth 10000 in decide,
   C5_parse_leniency [0] (by set_option maxRecDepth 10000 in decide)⟩

/-- Claim C5 counterexample: `C2bytes` decodes fine with verification on,
but with one trailing byte appended the verified decode errors with
`badChecksum` — trailing bytes *are* an error when `verify_checksum` is
true, against the claim's "including when verify_checksum is true". -/
theorem C5_counterexample :
    parse_message .Server C2bytes true = .ok C2parsed ∧
    parse_message .Server (C2bytes ++ [0]) true = .error .badChecksum := by
  set_option maxRecDepth 10000 in decide

/-- A send-outcome oracle under which every `send_to` succeeds. -/
def oracle_up : Nat → Bool := fun _ => true

/-- A send-outcome oracle under which every `send_to` fails. -/
def oracle_down : Nat → Bool := fun _ => false

/-- A concrete subscription: slots 0 and 1 by number, MAC 1. -/
def demo_req : RequestedControllerData :=
  { packet_number := 0, slot_numbers := [0, 1], mac_addresses := [1] }

/-- Claim C6 (confirmed).  Per-subscription packet numbers are strictly
monotone: a fresh subscriber enters the registry with `packet_number` 0;
`send_slot_data` emits the current counter and increments it by exactly
one iff the send succeeded; and across one fan-out pass for a subscriber
the successful sends carry exactly the packet numbers
`pn, pn+1, pn+2, …` (a contiguous `List.range'`), with the stored counter
advanced by the number of successful sends — so over a run the sequence
emitted to a fixed subscriber is `0, 1, 2, …`. -/
theorem C6_monotone_packet_numbers (hdr : MessageHeader)
    (oracle : Nat → Bool) (slots : List ServerSlot)
    (target source k : Nat)
    (clients : List (Nat × RequestedControllerData))
    (request : ControllerDataRequest) (req : RequestedControllerData)
    (hfresh : source ∉ clients.map Prod.fst) :
    (∃ req0, subscribe clients source request =
        clients ++ [(source, req0)] ∧ req0.packet_number = 0) ∧
    (∀ sIdx slot pn2 k2,
      (send_slot_data hdr oracle target sIdx slot pn2 k2).2.1 =
        (if oracle k2 = true then pn2 + 1 else pn2) ∧
      (send_slot_data hdr oracle target sIdx slot pn2 k2).1.ok =
        oracle k2) ∧
    ((process_client hdr oracle slots target req k).1.filter
        (·.ok)).map record_pn =
      List.range' req.packet_number
        (((process_client hdr oracle slots target req k).1.filter
          (·.ok)).length) ∧
    (process_client hdr oracle slots target req k).2.1.packet_number =
      req.packet_number +
        (((process_client hdr oracle slots target req k).1.filter
          (·.ok)).length) := by
  refine ⟨⟨_, subscribe_fresh clients source request hfresh,
    apply_request_pn _ _⟩, ?_, (process_client_pns hdr oracle slots target
      req k).1, (process_client_pns hdr oracle slots target req k).2⟩
  intro sIdx slot pn2 k2
  exact ⟨rfl, rfl⟩

/-- Claim C6 witness: `C6_monotone_packet_numbers` at a fresh subscriber
(address 5, empty registry) and one concrete fan-out. -/
theorem C6_monotone_packet_numbers_witness :
    (5 ∉ ([] : List (Nat × RequestedControllerData)).map Prod.fst) ∧
    ((∃ req0, subscribe [] 5 .ReportAll = [] ++ [(5, req0)] ∧
        req0.packet_number = 0) ∧
    (∀ sIdx slot pn2 k2,
      (send_slot_data hdrS oracle_up 9 sIdx slot pn2 k2).2.1 =
        (if oracle_up k2 = true then pn2 + 1 else pn2) ∧
      (send_slot_data hdrS oracle_up 9 sIdx slot pn2 k2).1.ok =
        oracle_up k2) ∧
    ((process_client hdrS oracle_up demo_slots 9 demo_req 0).1.filter
        (·.ok)).map record_pn =
      List.range' demo_req.packet_number
        (((process_client hdrS oracle_up demo_slots 9 demo_req 0).1.filter
          (·.ok)).length) ∧
    (process_client hdrS oracle_up demo_slots 9 demo_req 0).2.1.packet_number =
      demo_req.packet_number +
        (((process_client hdrS oracle_up demo_slots 9 demo_req 0).1.filter
          (·.ok)).length)) :=
  ⟨by decide, C6_monotone_packet_numbers hdrS oracle_up demo_slots 9 5 0 []
    .ReportAll demo_req (by decide)⟩

/-- Claim C7 (confirmed).  Per-slot monotone acceptance on the client:
for a decoded `ControllerData` message, `handle_response` never decreases
any slot's `latest_packet_number`; a packet number at or below the stored
value for its slot leaves the whole cache unchanged and produces no
event; and a `ControllerDataChanged` event is produced exactly when the
packet number strictly exceeds the stored value and the incoming info or
data structurally differs from the cache. -/
theorem C7_client_monotone_acceptance (slots : List ClientSlot)
    (hdr : MessageHeader) (pn : Nat) (ci : ControllerInfo)
    (cd : ControllerData) (hlen : slots.length = 4) (hslot : ci.slot < 4) :
    ∃ slots' ev,
      handle_response slots
          { header := hdr, message_type := .ControllerData,
            payload := .ControllerData pn ci cd } = some (slots', ev) ∧
      (∀ i, (slots.getD i ClientSlot.default).latest_packet_number ≤
        (slots'.getD i ClientSlot.default).latest_packet_number) ∧
      (pn ≤ (slots.getD ci.slot ClientSlot.default).latest_packet_number →
        slots' = slots ∧ ev = none) ∧
      (ev ≠ none ↔
        pn > (slots.getD ci.slot ClientSlot.default).latest_packet_number ∧
        ((slots.getD ci.slot ClientSlot.default).controller_info ≠ ci ∨
         (slots.getD ci.slot ClientSlot.default).controller_data ≠ cd)) :=
  handle_response_controller_data slots hdr pn ci cd hlen hslot

/-- Claim C7 witness: `C7_client_monotone_acceptance` at the client's
initial slot array and a concrete `ControllerData` message for slot 0. -/
theorem C7_client_monotone_acceptance_witness :
    (client_initial_slots.length = 4 ∧ ControllerInfo.default.slot < 4) ∧
    (∃ slots' ev,
      handle_response client_initial_slots
          { header := hdrS, message_type := .ControllerData,
            payload := .ControllerData 1 ControllerInfo.default
              ControllerData.default } = some (slots', ev) ∧
      (∀ i, (client_initial_slots.getD i
          ClientSlot.default).latest_packet_number ≤
        (slots'.getD i ClientSlot.default).latest_packet_number) ∧
      (1 ≤ (client_initial_slots.getD ControllerInfo.default.slot
          ClientSlot.default).latest_packet_number →
        slots' = client_initial_slots ∧ ev = none) ∧
      (ev ≠ none ↔
        1 > (client_initial_slots.getD ControllerInfo.default.slot
          ClientSlot.default).latest_packet_number ∧
        ((client_initial_slots.getD ControllerInfo.default.slot
            ClientSlot.default).controller_info ≠ ControllerInfo.default ∨
         (client_initial_slots.getD ControllerInfo.default.slot
            ClientSlot.default).controller_data ≠
              ControllerData.default))) :=
  ⟨⟨by decide, by decide⟩,
   C7_client_monotone_acceptance client_initial_slots hdrS 1
     ControllerInfo.default ControllerData.default (by decide) (by decide)⟩

/-- Claim C8 (confirmed).  Fan-out deduplication: within one fan-out pass
for a subscriber whose `slot_numbers` set is duplicate-free (a `HashSet`
always is), the slot indices of the datagrams sent are pairwise distinct
— the `slot_numbers` loop records each sent slot in `already_sent`, and
the MAC loop skips any matched slot already in `already_sent` — and a MAC
matching no slot's `controller_info.mac_address` is silently skipped,
leaving the loop state untouched. -/
theorem C8_fanout_dedup (hdr : MessageHeader) (oracle : Nat → Bool)
    (slots : List ServerSlot) (target : Nat)
    (req : RequestedControllerData) (k : Nat)
    (hnodup : req.slot_numbers.Nodup) :
    ((process_client hdr oracle slots target req k).1.map
      (·.slotIdx)).Nodup ∧
    (∀ mac rest pn2 k2 already,
      slots.findIdx? (fun slot => slot.controller_info.mac_address = mac) =
        none →
      send_macs_loop hdr oracle slots target (mac :: rest) pn2 k2 already =
        send_macs_loop hdr oracle slots target rest pn2 k2 already) :=
  ⟨process_client_nodup hdr oracle slots target req k hnodup,
   fun mac rest pn2 k2 already h =>
     send_macs_loop_skip hdr oracle slots target mac rest pn2 k2 already h⟩

/-- Claim C8 witness: `C8_fanout_dedup` for the concrete subscription to
slots 0 and 1 plus MAC 1 (which also matches slot 1). -/
theorem C8_fanout_dedup_witness :
    demo_req.slot_numbers.Nodup ∧
    (((process_client hdrS oracle_up demo_slots 9 demo_req 0).1.map
      (·.slotIdx)).Nodup ∧
    (∀ mac rest pn2 k2 already,
      demo_slots.findIdx?
          (fun slot => slot.controller_info.mac_address = mac) = none →
      send_macs_loop hdrS oracle_up demo_slots 9 (mac :: rest) pn2 k2
          already =
        send_macs_loop hdrS oracle_up demo_slots 9 rest pn2 k2 already)) :=
  ⟨by decide,
   C8_fanout_dedup hdrS oracle_up demo_slots 9 demo_req 0 (by decide)⟩

/-- Claim C9 (confirmed).  Eviction on send failure: during a fan-out
pass, if the sends to a subscriber fail (the `retain` closure saw a
failed send), the failed send is the last datagram attempted for that
subscriber in the pass (everything before it succeeded, nothing follows),
and the subscriber's address is absent from the registry the pass
returns; a subscriber whose sends all succeed is retained with its
`slot_numbers` and `mac_addresses` sets unchanged (only its
`packet_number` moved). -/
theorem C9_eviction_on_failure (hdr : MessageHeader) (oracle : Nat → Bool)
    (slots : List ServerSlot)
    (pre post : List (Nat × RequestedControllerData)) (addr : Nat)
    (req : RequestedControllerData) (k : Nat)
    (hnotin : addr ∉ (pre ++ post).map Prod.fst) :
    ((process_client hdr oracle slots addr req
        (fanout_counter hdr oracle slots pre k)).2.2.2 = false →
      (∃ rs rec, (process_client hdr oracle slots addr req
          (fanout_counter hdr oracle slots pre k)).1 = rs ++ [rec] ∧
        rec.ok = false ∧ ∀ r ∈ rs, r.ok = true) ∧
      addr ∉ (send_controller_data hdr oracle slots
        (pre ++ (addr, req) :: post) k).2.1.map Prod.fst) ∧
    ((process_client hdr oracle slots addr req
        (fanout_counter hdr oracle slots pre k)).2.2.2 = true →
      (addr, (process_client hdr oracle slots addr req
          (fanout_counter hdr oracle slots pre k)).2.1) ∈
        (send_controller_data hdr oracle slots
          (pre ++ (addr, req) :: post) k).2.1 ∧
      (process_client hdr oracle slots addr req
        (fanout_counter hdr oracle slots pre k)).2.1.slot_numbers =
        req.slot_numbers ∧
      (process_client hdr oracle slots addr req
        (fanout_counter hdr oracle slots pre k)).2.1.mac_addresses =
        req.mac_addresses) := by
  obtain ⟨h1, h2⟩ := send_controller_data_retain hdr oracle slots pre post
    addr req k hnotin
  refine ⟨fun hf => ⟨(process_client_shape hdr oracle slots addr req
      (fanout_counter hdr oracle slots pre k)).2 hf, h1 hf⟩,
    fun ht => ⟨h2 ht,
      (process_client_sets hdr oracle slots addr req
        (fanout_counter hdr oracle slots pre k)).1,
      (process_client_sets hdr oracle slots addr req
        (fanout_counter hdr oracle slots pre k)).2⟩⟩

/-- Claim C9 witness: `C9_eviction_on_failure` for a lone subscriber
(address 7) under the all-sends-fail oracle. -/
theorem C9_eviction_on_failure_witness :
    (7 ∉ (([] ++ []) :
      List (Nat × RequestedControllerData)).map Prod.fst) ∧
    (((process_client hdrS oracle_down demo_slots 7 demo_req
        (fanout_counter hdrS oracle_down demo_slots [] 0)).2.2.2 = false →
      (∃ rs rec, (process_client hdrS oracle_down demo_slots 7 demo_req
          (fanout_counter hdrS oracle_down demo_slots [] 0)).1 =
            rs ++ [rec] ∧
        rec.ok = false ∧ ∀ r ∈ rs, r.ok = true) ∧
      7 ∉ (send_controller_data hdrS oracle_down demo_slots
        ([] ++ (7, demo_req) :: []) 0).2.1.map Prod.fst) ∧
    ((process_client hdrS oracle_down demo_slots 7 demo_req
        (fanout_counter hdrS oracle_down demo_slots [] 0)).2.2.2 = true →
      (7, (process_client hdrS oracle_down demo_slots 7 demo_req
          (fanout_counter hdrS oracle_down demo_slots [] 0)).2.1) ∈
        (send_controller_data hdrS oracle_down demo_slots
          ([] ++ (7, demo_req) :: []) 0).2.1 ∧
      (process_client hdrS oracle_down demo_slots 7 demo_req
        (fanout_counter hdrS oracle_down demo_slots [] 0)).2.1.slot_numbers =
        demo_req.slot_numbers ∧
      (process_client hdrS oracle_down demo_slots 7 demo_req
        (fanout_counter hdrS oracle_down demo_slots [] 0)).2.1.mac_addresses =
        demo_req.mac_addresses)) :=
  ⟨by decide, C9_eviction_on_failure hdrS oracle_down demo_slots [] [] 7
    demo_req 0 (by decide)⟩

/-- Claim C10 (corrected).  Frame property of `update_controller_data`
for `slot_number < 4` (the `assert!`): only that slot's
`controller_data` changes — the slot array keeps its length, every
slot's `controller_info` is untouched, the other slots'
`controller_data` are untouched, and the updated slot holds the new
data.  For the registry the original claim is too strong: the fan-out
this call triggers may *evict* a subscriber whose send fails
(`C10_counterexample`), so what holds is that every subscription still
present afterwards has its `slot_numbers` and `mac_addresses` sets
unchanged from its entry in the registry before the call. -/
theorem C10_update_frame (hdr : MessageHeader) (oracle : Nat → Bool)
    (slots : List ServerSlot)
    (clients : List (Nat × RequestedControllerData)) (slot_number : Nat)
    (cd : ControllerData) (k : Nat) (h4 : slot_number < slots.length) :
    (update_controller_data hdr oracle slots clients slot_number cd
      k).2.1.length = slots.length ∧
    (∀ i, ((update_controller_data hdr oracle slots clients slot_number cd
        k).2.1.getD i ServerSlot.default).controller_info =
      (slots.getD i ServerSlot.default).controller_info) ∧
    (∀ i, i ≠ slot_number →
      ((update_controller_data hdr oracle slots clients slot_number cd
          k).2.1.getD i ServerSlot.default).controller_data =
        (slots.getD i ServerSlot.default).controller_data) ∧
    ((update_controller_data hdr oracle slots clients slot_number cd
      k).2.1.getD slot_number ServerSlot.default).controller_data = cd ∧
    (∀ p ∈ (update_controller_data hdr oracle slots clients slot_number cd
        k).2.2.1,
      ∃ req, (p.1, req) ∈ clients ∧ p.2.slot_numbers = req.slot_numbers ∧
        p.2.mac_addresses = req.mac_addresses) := by
  rw [update_controller_data_slots]
  refine ⟨List.length_set _ _ _, ?_, ?_, ?_, ?_⟩
  · intro i
    by_cases hi : i = slot_number
    · subst hi
      rw [getD_set_self_server slots i _ h4]
    · rw [getD_set_other_server slots slot_number i _ (fun h => hi h.symm)]
  · intro i hi
    rw [getD_set_other_server slots slot_number i _ (fun h => hi h.symm)]
  · rw [getD_set_self_server slots slot_number _ h4]
  · intro p hp
    rw [update_controller_data_clients] at hp
    exact send_controller_data_provenance hdr oracle _ clients k p hp

/-- Claim C10 witness: `C10_update_frame` at slot 0 of the concrete
4-slot cache with one subscriber, all sends succeeding. -/
theorem C10_update_frame_witness :
    (0 < demo_slots.length) ∧
    ((update_controller_data hdrS oracle_up demo_slots [(7, demo_req)] 0
      ControllerData.default 0).2.1.length = demo_slots.length ∧
    (∀ i, ((update_controller_data hdrS oracle_up demo_slots
        [(7, demo_req)] 0 ControllerData.default
        0).2.1.getD i ServerSlot.default).controller_info =
      (demo_slots.getD i ServerSlot.default).controller_info) ∧
    (∀ i, i ≠ 0 →
      ((update_controller_data hdrS oracle_up demo_slots [(7, demo_req)] 0
          ControllerData.default 0).2.1.getD i
            ServerSlot.default).controller_data =
        (demo_slots.getD i ServerSlot.default).controller_data) ∧
    ((update_controller_data hdrS oracle_up demo_slots [(7, demo_req)] 0
      ControllerData.default 0).2.1.getD 0
        ServerSlot.default).controller_data = ControllerData.default ∧
    (∀ p ∈ (update_controller_data hdrS oracle_up demo_slots
        [(7, demo_req)] 0 ControllerData.default 0).2.2.1,
      ∃ req, (p.1, req) ∈ [(7, demo_req)] ∧
        p.2.slot_numbers = req.slot_numbers ∧
        p.2.mac_addresses = req.mac_addresses)) :=
  ⟨by decide, C10_update_frame hdrS oracle_up demo_slots [(7, demo_req)] 0
    ControllerData.default 0 (by decide)⟩

/-- Claim C10 counterexample: with every send failing,
`update_controller_data` on slot 0 *removes* the lone subscription
(address 7, slots {0, 1}, MAC {1}) from the registry — its
`slot_numbers`/`mac_addresses` sets are not "unchanged", the whole entry
is gone, so "every subscription's sets unchanged, only packet_number may
advance" is false as stated. -/
theorem C10_counterexample :
    (update_controller_data hdrS oracle_down demo_slots [(7, demo_req)] 0
      ControllerData.default 0).2.2.1 = [] ∧
    demo_req.slot_numbers = [0, 1] ∧ demo_req.mac_addresses = [1] := by
  decide
